import Mathlib

/-!
# Verification of the form-filling engine in `main.py`

A shallow embedding of the generic form-discovery, field-classification and
submission-confirmation engine of the crawler repository (`src/main.py`),
together with theorems settling the specification claims about it.

Conventions of the embedding:
* Selenium attribute reads (`get_attribute`) return `Option String`
  (`none` models Python `None`).
* Python substring tests (`a in b`) are modeled by `strContains b a`.
* The random-data generator (`faker`) is modeled by a `Faker` record of
  opaque result strings passed in as a parameter: the code's control flow
  never inspects the generated text, only chooses which generator to call.
* Browser snapshots read by `detect_submission_change` are modeled by
  `DriverState`; a call of the oracle is given its two snapshots (or an
  internal failure, modeled by `OracleInput.err`, mirroring the
  `try/except` wrapper of the Python function).
-/

/-- Is `needle` a contiguous infix of `hay`? (executable). -/
def charsInfix (needle : List Char) : List Char → Bool
  | [] => needle.isEmpty
  | b :: bs => needle.isPrefixOf (b :: bs) || charsInfix needle bs

/-- Python's `needle in hay` substring test. -/
def strContains (hay needle : String) : Bool :=
  charsInfix needle.toList hay.toList

/-- Python's `str.lower()` (ASCII case folding). -/
def strLower (s : String) : String := ⟨s.data.map Char.toLower⟩

/-- Python's `str.strip()`: drop leading and trailing whitespace. -/
def strTrim (s : String) : String :=
  ⟨((s.data.dropWhile Char.isWhitespace).reverse.dropWhile Char.isWhitespace).reverse⟩

/-- XPath-style `contains(@attr, needle)`: `false` when the attribute is absent. -/
def optContains (o : Option String) (needle : String) : Bool :=
  match o with
  | some v => strContains v needle
  | none => false

/-- The claim's "email shape": the string contains `@` with a `.` somewhere after it. -/
def afterAtHasDot : List Char → Bool
  | [] => false
  | c :: rest => if c == '@' then rest.contains '.' else afterAtHasDot rest

/-- A string is email-shaped (in the sense of the specification) when it
contains an `@` and a `.` after it. -/
def emailShaped (s : String) : Bool := afterAtHasDot s.toList

/-- An input-like element as observed through the DOM accessor: the
attributes the engine reads, plus its interactability and selection state.
`labelNearEmail` abstracts the three layout-based email-field discovery
XPath queries of `fill_every_form_tool` (table label cell, `<label>`
sibling, text node followed by an input), which depend on page layout that
the attribute record cannot express. -/
structure FormInput where
  tag : String
  type_attr : Option String
  name_attr : Option String
  id_attr : Option String
  placeholder : Option String
  pattern : Option String
  aria_label : Option String
  displayed : Bool
  enabled : Bool
  checked : Bool
  labelNearEmail : Bool
  deriving DecidableEq, Repr

/-- The record of `faker` results available to one classification call. -/
structure Faker where
  email : String
  phone : String
  password : String
  date : String
  personName : String
  paragraph : String
  address : String
  text : String
  word : String
  digits10 : String
  deriving DecidableEq, Repr

/-- The element's identity string: lower-cased name, id and placeholder
concatenated, then stripped (`guess_input_value`, lines 185-189). -/
def identityStringOf (e : FormInput) : String :=
  strTrim (strLower (e.name_attr.getD "") ++ strLower (e.id_attr.getD "") ++
    strLower (e.placeholder.getD ""))

/-- The element's lower-cased `type` attribute (empty when absent). -/
def inputTypeOf (e : FormInput) : String :=
  strLower (e.type_attr.getD "")

/-- The code's "basic email format check": value contains `@` and `.`
(`guess_input_value`, line 201). -/
def emailLikePred (kv : String × String) : Bool :=
  strContains kv.2 "@" && strContains kv.2 "."

/-- Lower-cased name+id+placeholder of a page input, as recomputed inside the
dynamic login-form branch of `guess_input_value` (lines 225-229, no strip). -/
def nameAttrsOf (i : FormInput) : String :=
  strLower (i.name_attr.getD "") ++ strLower (i.id_attr.getD "") ++
    strLower (i.placeholder.getD "")

/-- Keywords identifying a username/email field (line 232). -/
def userFieldKeywords : List String := ["user", "email", "login", "account"]

/-- Predicate on a map entry used inside the dynamic branch (line 234):
value contains `@`, or the key contains `username` or `user`. -/
def userValuePred (kv : String × String) : Bool :=
  strContains kv.2 "@" || strContains (strLower kv.1) "username" ||
    strContains (strLower kv.1) "user"

/-- Page-wide visible inputs considered by the login-form heuristic
(lines 212-213): displayed, and raw `type` attribute not one of
`hidden`/`submit`/`button` (an absent attribute passes). -/
def visiblePageInputs (page_inputs : List FormInput) : List FormInput :=
  page_inputs.filter (fun i =>
    i.displayed &&
      !(i.type_attr == some "hidden" || i.type_attr == some "submit" ||
        i.type_attr == some "button"))

/-- The inner scan of the dynamic branch (lines 224-235): walk the visible
inputs; at the first one whose attributes contain a user-field keyword,
return the first map value satisfying `userValuePred`, if any; otherwise
keep walking. -/
def scanShortFormInputs (cd : List (String × String)) :
    List FormInput → Option String
  | [] => none
  | i :: rest =>
    if userFieldKeywords.any (fun x => strContains (nameAttrsOf i) x) then
      match cd.find? userValuePred with
      | some kv => some kv.2
      | none => scanShortFormInputs cd rest
    else scanShortFormInputs cd rest

/-- The `if custom_data:` block of `guess_input_value` (lines 192-243):
email priority, then the dynamic short-form heuristic, then direct key
substring match.  `none` means fall through to synthetic data. -/
def customLookup (input_type nip : String) (cd : List (String × String))
    (page_inputs : List FormInput) : Option String :=
  if cd.isEmpty then none else
  let emailHit : Option String :=
    if strContains nip "email" || input_type == "email" then
      (cd.find? emailLikePred).map (·.2)
    else none
  match emailHit with
  | some v => some v
  | none =>
    let vis := visiblePageInputs page_inputs
    let dynHit : Option String :=
      if vis.length ≤ 3 then
        match (cd.find? emailLikePred).map (·.2) with
        | some v => some v
        | none => scanShortFormInputs cd vis
      else none
    match dynHit with
    | some v => some v
    | none =>
      if cd.any (fun kv => strContains nip (strLower kv.1)) then
        (cd.find? (fun kv => strContains nip (strLower kv.1))).map (·.2)
      else none

/-- Validation-pattern inference (lines 245-249): a truthy pattern
containing `10` yields ten random digits, else one containing the literal
`[a-zA-Z]` yields a random word; otherwise fall through. -/
def patternValue (pattern : Option String) (fk : Faker) : Option String :=
  match pattern with
  | some p =>
    if p == "" then none
    else if strContains p "10" then some fk.digits10
    else if strContains p "[a-zA-Z]" then some fk.word
    else none
  | none => none

/-- Keyword-based synthetic data (lines 250-264), checked in the code's
fixed order. -/
def synthKeywordValue (input_type nip : String) (fk : Faker) : String :=
  if strContains nip "email" then fk.email
  else if strContains nip "phone" || strContains input_type "tel" then fk.phone
  else if input_type == "password" then fk.password
  else if input_type == "date" then fk.date
  else if strContains nip "name" || strContains nip "user" then fk.personName
  else if strContains nip "message" || strContains nip "comment" ||
      strContains nip "description" then fk.paragraph
  else if strContains nip "address" then fk.address
  else fk.text

/-- `guess_input_value(input_elem, custom_data)` (lines 182-264): the field
classifier.  `page_inputs` models `driver.find_elements(By.TAG_NAME,
"input")` as read by the dynamic login-form branch. -/
def guess_input_value (inp : FormInput) (cd : List (String × String))
    (page_inputs : List FormInput) (fk : Faker) : String :=
  let input_type := inputTypeOf inp
  let nip := identityStringOf inp
  match customLookup input_type nip cd page_inputs with
  | some v => v
  | none =>
    match patternValue inp.pattern fk with
    | some v => v
    | none => synthKeywordValue input_type nip fk

/-!
## Submission-outcome oracle (`detect_submission_change`, lines 345-388)
-/

/-- An input element as read by the login-field XPath of the oracle. -/
structure LoginInput where
  type_attr : Option String
  name_attr : Option String
  id_attr : Option String
  displayed : Bool
  deriving DecidableEq, Repr

/-- One browser snapshot: URL, serialized markup, `<form>` count and the
page's input elements. -/
structure DriverState where
  url : String
  source : String
  forms : Nat
  inputs : List LoginInput
  deriving DecidableEq, Repr

/-- The login-identifying XPath predicate (lines 353-354): `type`, `name` or
`id` contains `email`, or `id`/`name` contains `username` (case-sensitive
substring, as XPath `contains`; visibility is not inspected). -/
def loginFieldPred (i : LoginInput) : Bool :=
  optContains i.type_attr "email" || optContains i.name_attr "email" ||
    optContains i.id_attr "email" || optContains i.id_attr "username" ||
    optContains i.name_attr "username"

/-- Count of login-identifying inputs in a snapshot. -/
def loginFieldCount (s : DriverState) : Nat :=
  s.inputs.countP loginFieldPred

/-- The count the specification describes: only displayed inputs. -/
def visibleLoginFieldCount (s : DriverState) : Nat :=
  s.inputs.countP (fun i => i.displayed && loginFieldPred i)

/-- The fixed success-indicator vocabulary (line 366). -/
def successIndicators : List String :=
  ["thank you", "submitted", "success", "message sent", "your submission",
   "welcome", "dashboard", "account", "profile"]

/-- Does the lower-cased markup contain a success indicator? -/
def hasSuccessIndicator (src : String) : Bool :=
  successIndicators.any (fun ind => strContains (strLower src) ind)

/-- `source_changed` (line 367): markup differs and the new markup shows a
success indicator. -/
def sourceChangedB (s0 s1 : DriverState) : Bool :=
  !(s1.source == s0.source) && hasSuccessIndicator s1.source

/-- `login_success` (line 368): login-identifying field count strictly
decreased from a positive initial count. -/
def loginSuccessB (s0 s1 : DriverState) : Bool :=
  decide (0 < loginFieldCount s0) && decide (loginFieldCount s1 < loginFieldCount s0)

/-- `result` (line 370): the oracle's disjunction. -/
def detectCondition (s0 s1 : DriverState) : Bool :=
  !(s1.url == s0.url) || !(s1.forms == s0.forms) || sourceChangedB s0 s1 ||
    loginSuccessB s0 s1

/-- The `change_reasons` list (lines 373-381). -/
def detectReasons (s0 s1 : DriverState) : List String :=
  (if !(s1.url == s0.url) then
    ["URL changed from " ++ s0.url ++ " to " ++ s1.url] else []) ++
  (if !(s1.forms == s0.forms) then
    ["Form count changed from " ++ toString s0.forms ++ " to " ++
      toString s1.forms] else []) ++
  (if sourceChangedB s0 s1 then ["Success indicator found in page source"] else []) ++
  (if loginSuccessB s0 s1 then
    ["Login fields reduced from " ++ toString (loginFieldCount s0) ++
      " to " ++ toString (loginFieldCount s1)] else [])

/-- The comparison core of `detect_submission_change` (lines 347-385) on the
two snapshots, returning the verdict and the log lines it appends. -/
def detect_snapshots (s0 s1 : DriverState) : Bool × List String :=
  if detectCondition s0 s1 then
    (true, ["Submission change detected: " ++
      String.intercalate ", " (detectReasons s0 s1)])
  else (false, [])

/-- What one invocation of the oracle observes: either its two snapshots, or
an internal failure raised while taking or comparing them (the argument of
the `except` handler, lines 386-388). -/
inductive OracleInput where
  | ok (s0 s1 : DriverState)
  | err (msg : String)
  deriving DecidableEq, Repr

/-- `detect_submission_change(driver)`: the whole body runs under
`try/except`; a failure is logged and reported as `False`. The returned list
holds the lines appended to the shared action log. -/
def detect_submission_change : OracleInput → Bool × List String
  | .ok s0 s1 => detect_snapshots s0 s1
  | .err msg => (false, ["Error in detect_submission_change: " ++ msg])

/-!
## Orchestrator model (`fill_every_form_tool`, lines 168-681)

The browser is abstracted as follows.  Each browsing context carries the
page content the orchestrator observes while processing it (`PageCtx`).
Each invocation of the submission-outcome oracle is fed from a stream
`oracle : Nat → OracleInput` indexed by the number of previous calls,
modeling the pair of live snapshots (or failure) that call observes.
Click side effects on the page are reflected only through that stream
and through the explicit radio/checkbox selection state threaded by the
fill pass; the event trace (`Ev`) records every DOM action performed.
-/

/-- The DOM actions the orchestrator performs, in order. -/
inductive Ev where
  | fillEmailField (value : String)
  | fillField (value : String)
  | clickCheckbox
  | clickRadio (rname : String)
  | clickCandidate (text : String)
  | enterKey
  | jsSubmit
  | lastResortClick (text : String)
  | switchFrame (cname : String)
  deriving DecidableEq, Repr

/-- Tag, visible text and interactability of a page element. -/
structure ElemCore where
  tag : String
  text : String
  displayed : Bool
  enabled : Bool
  deriving DecidableEq, Repr

/-- A page element as seen by the submission-candidate machinery:
`ancestorForm` is the index of the `<form>` returned by
`find_element("ancestor::form")` (`none` = that lookup raises);
`siblingForms` lists the form indices whose sibling axes contain the
element; `ancestors` is the parent chain walked by
`find_parent_clickable`. -/
structure CandElem where
  core : ElemCore
  ancestorForm : Option Nat
  siblingForms : List Nat
  ancestors : List ElemCore
  deriving DecidableEq, Repr

/-- Is an element an acceptable click target for `find_parent_clickable`
(lines 266-276): displayed, enabled and of tag button/div/a/span. -/
def clickableOk (e : ElemCore) : Bool :=
  e.displayed && e.enabled &&
    (e.tag == "button" || e.tag == "div" || e.tag == "a" || e.tag == "span")

/-- The three-step upward walk of `find_parent_clickable`; `none` when no
acceptable ancestor is found within three steps (or the walk runs off the
root, which raises and breaks in the code). -/
def parentWalk : Nat → ElemCore → List ElemCore → Option ElemCore
  | 0, _, _ => none
  | n + 1, cur, ps =>
    if clickableOk cur then some cur
    else match ps with
      | [] => none
      | p :: rest => parentWalk n p rest

/-- `find_parent_clickable(element)` (lines 266-276): the nearest clickable
ancestor within three steps, defaulting to the element itself. -/
def find_parent_clickable (e : CandElem) : ElemCore :=
  (parentWalk 3 e.core e.ancestors).getD e.core

/-- Keywords marking submit-like visible text (line 334). -/
def submitKeywords : List String := ["submit", "send", "save", "confirm", "message"]

/-- The five tags enumerated by the candidate XPaths (lines 583, 589, 659). -/
def tagIn5 (t : String) : Bool :=
  t == "button" || t == "input" || t == "div" || t == "span" || t == "a"

/-- `is_submit_candidate(element, form)` (lines 330-343).  `container` is
`some i` for the page's `i`-th `<form>`, `none` when the container is the
document body (no `<form>` on the page).  An element without a `<form>`
ancestor never qualifies: the `ancestor::form` lookup raises and the
`except` skips the sibling test too.  The body is never an element's
`ancestor::form` result and has no sibling elements of interest, so with a
body container the structural test is `false`. -/
def is_submit_candidate (e : CandElem) (container : Option Nat) : Bool :=
  (submitKeywords.any (fun k => strContains (strLower e.core.text) k) ||
      e.core.tag == "button" || e.core.tag == "input") &&
    (match e.ancestorForm, container with
     | some pf, some ci => pf == ci || e.siblingForms.contains ci
     | _, _ => false)

/-- One "form unit": a located `<form>` (or the document body when the
context has no forms), its descendant `input|textarea|select` elements in
document order, and the page markup the orchestrator reads right after its
submission cascade (line 652). -/
structure FormUnit where
  inputs : List FormInput
  postSource : String
  deriving DecidableEq, Repr

/-- What the orchestrator observes while processing one browsing context:
page markup at the context's success pre-check (line 457), the located
forms, the body fallback unit, the page-wide input list (used by
`guess_input_value`'s login heuristic) and the page-wide element list
(used by the candidate and last-resort XPaths). -/
structure PageCtx where
  source : String
  realForms : List FormUnit
  bodyUnit : FormUnit
  pageInputs : List FormInput
  pageElems : List CandElem

/-- One discoverable iframe: its `id` attribute, whether switching into it
succeeds during enumeration (lines 437-444), the text of the raised error
otherwise, and the page content observed if its context is processed. -/
structure IframeInfo where
  id_attr : Option String
  accessible : Bool
  errMsg : String
  page : PageCtx

/-- The environment of one `fill_every_form_tool` invocation.  `navLog` is
the action-log prefix produced by the best-effort login/contact
pre-navigation phase (lines 392-432), which only appends log lines. -/
structure OrchEnv where
  navLog : List String
  mainPage : PageCtx
  iframes : List IframeInfo
  arg : List (String × String)
  oracle : Nat → OracleInput
  fk : Faker

/-- A browsing-context entry as stored in the `contexts` list (lines
434-444): the driver handle stored in the tuple (`0` is the main driver —
the code appends `driver` itself for every iframe entry), the display
name, and the observed page content. -/
structure Ctx where
  handle : Nat
  cname : String
  page : PageCtx

/-- The display label of an iframe context (line 440): its `id` attribute,
or `"unnamed"` when the attribute is missing or empty (Python falsiness). -/
def iframeLabel (f : IframeInfo) : String :=
  "iframe '" ++ (match f.id_attr with
    | some s => if s == "" then "unnamed" else s
    | none => "unnamed") ++ "'"

/-- Context enumeration (lines 434-444): the main page first, then one
entry per accessible iframe — every entry storing the main driver handle
`0`.  Returns the context list and the error lines appended for
inaccessible iframes. -/
def enumStep (acc : List Ctx × List String) (f : IframeInfo) : List Ctx × List String :=
  if f.accessible then (acc.1 ++ [⟨0, iframeLabel f, f.page⟩], acc.2)
  else (acc.1, acc.2 ++ ["Error accessing iframe: " ++ f.errMsg])

/-- Fold of `enumStep` over the discoverable iframes, seeded with the main
page context. -/
def enumerateContexts (env : OrchEnv) : List Ctx × List String :=
  env.iframes.foldl enumStep ([⟨0, "main page", env.mainPage⟩], [])

/-- The email-field predicate of the dedicated first pass (lines 477-524):
attribute strategy (type `email`, or name/id containing `email`/`user`),
aria-label/placeholder strategy, or one of the three layout-based label
strategies (abstracted by the `labelNearEmail` flag). -/
def emailFieldPred (i : FormInput) : Bool :=
  (strLower (i.type_attr.getD "") == "email" ||
      strContains (strLower (i.name_attr.getD "")) "email" ||
      strContains (strLower (i.id_attr.getD "")) "email" ||
      strContains (strLower (i.name_attr.getD "")) "user" ||
      strContains (strLower (i.id_attr.getD "")) "user") ||
    strContains (strLower (i.aria_label.getD "")) "email" ||
    strContains (strLower (i.placeholder.getD "")) "email" ||
    i.labelNearEmail

/-- The email value extracted from the caller-supplied mapping (lines
470-475): the first value containing `@` and `.`, if the mapping is
truthy. -/
def emailValueOf (arg : List (String × String)) : Option String :=
  if arg.isEmpty then none else (arg.find? emailLikePred).map (·.2)

/-- State threaded through one form's fill pass: the selection state of the
form's inputs (by index into `FormUnit.inputs`), the function-scoped
visited-radio-group names, and the log/event deltas. -/
structure FillSt where
  chk : Nat → Bool
  visited : List String
  log : List String
  evs : List Ev

/-- Is the input at position `j` a radio button of group `n`? -/
def isGroupMem (o : Option FormInput) (n : String) : Bool :=
  match o with
  | some e => strLower (e.type_attr.getD "") == "radio" && e.name_attr == some n
  | none => false

/-- Indices of the form's radio buttons named `n`. -/
def groupIdx (inputs : List FormInput) (n : String) : List Nat :=
  (List.range inputs.length).filter (fun j => isGroupMem (inputs.get? j) n)

/-- DOM semantics of clicking radio `i` of group `rn`: it becomes checked
and every other same-named radio of the form becomes unchecked. -/
def radioClick (inputs : List FormInput) (chk : Nat → Bool) (i : Nat)
    (rn : String) : Nat → Bool :=
  fun j => if j == i then true
    else if isGroupMem (inputs.get? j) rn then false
    else chk j

/-- One step of the dedicated email pass (lines 527-537): fill a displayed
and enabled email field with the email value. -/
def emailStep (cname v : String) (s : FillSt) (i : FormInput) : FillSt :=
  if i.displayed && i.enabled then
    { s with
      log := s.log ++ ["[" ++ cname ++ "] Filled email field with '" ++ v ++ "'."],
      evs := s.evs ++ [Ev.fillEmailField v] }
  else s

/-- The dedicated email pass (lines 526-537): when an email value and email
fields both exist, fill each displayed and enabled email field with it. -/
def emailPass (cname : String) (fu : FormUnit) (emailValue : Option String)
    (st : FillSt) : FillSt :=
  match emailValue with
  | none => st
  | some v =>
    let flds := fu.inputs.filter emailFieldPred
    if flds.isEmpty then st
    else flds.foldl (emailStep cname v) st

/-- One step of the generic fill loop (lines 540-574) on the input at
position `i`: skip hidden or disabled inputs; force visibility of
non-displayed ones (log only); skip already-filled email fields; check
checkboxes; select at most one radio per unvisited nonempty group name;
skip button/submit/reset/file; otherwise classify and fill. -/
def fillStep (cname : String) (arg : List (String × String))
    (pageInputs : List FormInput) (fk : Faker) (allInputs : List FormInput)
    (emailValue : Option String) (st : FillSt) (p : Nat × FormInput) : FillSt :=
  let i := p.1
  let inp := p.2
  let itype := strLower (inp.type_attr.getD "")
  if itype == "hidden" then st
  else if !inp.enabled then st
  else
    let st1 : FillSt :=
      { st with log := st.log ++
          (if !inp.displayed then
            ["[" ++ cname ++ "] Forced visibility of " ++ itype ++ " input."]
          else []) }
    if emailValue.isSome && emailFieldPred inp then st1
    else if itype == "checkbox" then
      let st2 :=
        if !(st1.chk i) then
          { st1 with chk := fun j => if j == i then true else st1.chk j,
                     evs := st1.evs ++ [Ev.clickCheckbox] }
        else st1
      { st2 with log := st2.log ++ ["[" ++ cname ++ "] Checked a checkbox."] }
    else if itype == "radio" then
      match inp.name_attr with
      | some rn =>
        if rn != "" && !(st1.visited.contains rn) then
          let st2 :=
            if !(st1.chk i) then
              { st1 with chk := radioClick allInputs st1.chk i rn,
                         evs := st1.evs ++ [Ev.clickRadio rn] }
            else st1
          { st2 with visited := st2.visited ++ [rn],
                     log := st2.log ++
                       ["[" ++ cname ++ "] Selected radio button '" ++ rn ++ "'."] }
        else st1
      | none => st1
    else if itype == "button" || itype == "submit" || itype == "reset" ||
        itype == "file" then st1
    else
      let v := guess_input_value inp arg pageInputs fk
      { st1 with
        log := st1.log ++
          ["[" ++ cname ++ "] Filled input (" ++ itype ++ ") with '" ++ v ++ "'."],
        evs := st1.evs ++ [Ev.fillField v] }

/-- The generic fill loop over the indexed inputs of one form. -/
def fillLoop (cname : String) (arg : List (String × String))
    (pageInputs : List FormInput) (fk : Faker) (allInputs : List FormInput)
    (emailValue : Option String) : List (Nat × FormInput) → FillSt → FillSt
  | [], st => st
  | p :: rest, st =>
    fillLoop cname arg pageInputs fk allInputs emailValue rest
      (fillStep cname arg pageInputs fk allInputs emailValue st p)

/-- Initial selection state of a form: the `checked` attribute of each
input, read by position. -/
def initChk (fu : FormUnit) : Nat → Bool :=
  fun j => ((fu.inputs.get? j).map (·.checked)).getD false

/-- The whole fill pass for one form (lines 469-574): compute the email
value, run the dedicated email pass, then the generic loop.  `visited0` is
the function-scoped visited-radio-group state at entry (the Python code
keeps it in ambient function-local scope via `locals()` dictionary
defaults, so it persists across forms and contexts of one invocation). -/
def fillPass (cname : String) (arg : List (String × String))
    (pageInputs : List FormInput) (fk : Faker) (fu : FormUnit)
    (visited0 : List String) : FillSt :=
  let emailValue := emailValueOf arg
  let st0 : FillSt := ⟨initChk fu, visited0, [], []⟩
  let st1 := emailPass cname fu emailValue st0
  fillLoop cname arg pageInputs fk fu.inputs emailValue fu.inputs.enum st1

/-!
## Submission cascade (lines 576-675)
-/

/-- One oracle-checked submission attempt, tagged with its strategy rank:
1 = candidate click, 2 = Enter key, 3 = script-level submission,
4 = last-resort click. -/
structure Attempt where
  strat : Nat
  result : Bool
  deriving DecidableEq, Repr

/-- Outcome of one (partial) cascade: the `submitted` flag, the number of
`submitted_forms` increments, the oracle-stream position, the attempts
made, and the log/event deltas. -/
structure CascadeOut where
  submitted : Bool
  inc : Nat
  oracleIdx : Nat
  attempts : List Attempt
  log : List String
  evs : List Ev
  deriving Repr

/-- Sequencing of cascade stages: a later stage runs only when the earlier
stages have not submitted (the `if not submitted:` guards). -/
def CascadeOut.seq (a : CascadeOut) (f : Nat → CascadeOut) : CascadeOut :=
  if a.submitted then a
  else
    let b := f a.oracleIdx
    ⟨b.submitted, a.inc + b.inc, b.oracleIdx, a.attempts ++ b.attempts,
      a.log ++ b.log, a.evs ++ b.evs⟩

/-- The form-scoped element pool of the candidate search (line 583):
descendants of the container with one of the five tags.  With the body as
container every five-tag page element qualifies. -/
def formScopedElems (page : PageCtx) (container : Option Nat) : List CandElem :=
  match container with
  | some ci =>
    page.pageElems.filter (fun e => tagIn5 e.core.tag && e.ancestorForm == some ci)
  | none => page.pageElems.filter (fun e => tagIn5 e.core.tag)

/-- Displayed, enabled and qualifying as a submit candidate (lines 584-592). -/
def candidateFilter (container : Option Nat) (e : CandElem) : Bool :=
  e.core.displayed && e.core.enabled && is_submit_candidate e container

/-- `potential_buttons` (lines 581-592): form-scoped candidates, widened to
the whole page when the form-scoped pass finds none. -/
def potentialButtons (page : PageCtx) (container : Option Nat) : List CandElem :=
  let pot := (formScopedElems page container).filter (candidateFilter container)
  if pot.isEmpty then
    (page.pageElems.filter (fun e => tagIn5 e.core.tag)).filter (candidateFilter container)
  else pot

/-- Strategy 1 click loop (lines 594-607): click each candidate in document
order, consult the oracle, stop at the first detected change. -/
def s1Loop (env : OrchEnv) (cname : String) : List CandElem → Nat → CascadeOut
  | [], k => ⟨false, 0, k, [], [], []⟩
  | b :: rest, k =>
    let ptag := (find_parent_clickable b).tag
    let headLog := ["[" ++ cname ++ "] Attempted submission by clicking candidate: '" ++
      b.core.text ++ "' (tag: " ++ ptag ++ ")"]
    let d := detect_submission_change (env.oracle k)
    if d.1 then
      ⟨true, 1, k + 1, [⟨1, true⟩],
        headLog ++ d.2 ++
          ["[" ++ cname ++ "] Submission detected after clicking '" ++ b.core.text ++ "'."],
        [Ev.clickCandidate b.core.text]⟩
    else
      let r := s1Loop env cname rest (k + 1)
      ⟨r.submitted, r.inc, r.oracleIdx, ⟨1, false⟩ :: r.attempts,
        headLog ++ d.2 ++ r.log, Ev.clickCandidate b.core.text :: r.evs⟩

/-- Strategy 1: candidate clicks. -/
def strategy1 (env : OrchEnv) (cname : String) (page : PageCtx)
    (container : Option Nat) (k : Nat) : CascadeOut :=
  s1Loop env cname (potentialButtons page container) k

/-- The CSS query of the Enter-key fallback (line 613): text/email inputs
and textareas of the form. -/
def textInputsOf (fu : FormUnit) : List FormInput :=
  fu.inputs.filter (fun i =>
    (i.tag == "input" && (i.type_attr == some "text" || i.type_attr == some "email")) ||
      i.tag == "textarea")

/-- Strategy 2 (lines 612-623): send Enter to the first text input, if any,
and consult the oracle. -/
def strategy2 (env : OrchEnv) (cname : String) (fu : FormUnit) (k : Nat) : CascadeOut :=
  if (textInputsOf fu).isEmpty then ⟨false, 0, k, [], [], []⟩
  else
    let headLog := ["[" ++ cname ++ "] Submitted form by sending Enter key."]
    let d := detect_submission_change (env.oracle k)
    if d.1 then ⟨true, 1, k + 1, [⟨2, true⟩], headLog ++ d.2, [Ev.enterKey]⟩
    else ⟨false, 0, k + 1, [⟨2, false⟩], headLog ++ d.2, [Ev.enterKey]⟩

/-- The `str(e)` text of the exception raised by the script-submission
block when the context has no `<form>` elements (the presence wait times
out / the re-indexing fails); the exact text is environment-specific. -/
def jsFailMsg : String := "Message: "

/-- Strategy 3 (lines 626-649): up to two script-level submissions.  When
the context holds real `<form>` elements the first attempt executes, the
oracle is consulted and the unconditional `break` ends the loop; when the
container is the body fallback, both attempts raise (no `<form>` to wait
for or re-index) and only failure lines are logged. -/
def strategy3 (env : OrchEnv) (cname : String) (hasReal : Bool) (k : Nat) : CascadeOut :=
  if hasReal then
    let headLog := ["[" ++ cname ++ "] Submitted form using enhanced JavaScript."]
    let d := detect_submission_change (env.oracle k)
    if d.1 then ⟨true, 1, k + 1, [⟨3, true⟩], headLog ++ d.2, [Ev.jsSubmit]⟩
    else ⟨false, 0, k + 1, [⟨3, false⟩], headLog ++ d.2, [Ev.jsSubmit]⟩
  else
    ⟨false, 0, k, [],
      ["[" ++ cname ++ "] JavaScript submission attempt 1 failed: " ++ jsFailMsg,
       "[" ++ cname ++ "] JavaScript submission attempt 2 failed: " ++ jsFailMsg], []⟩

/-- Strategy 4 loop (lines 658-672): click every displayed, enabled
five-tag element on the page, consulting the oracle after each. -/
def s4Loop (env : OrchEnv) (cname : String) : List CandElem → Nat → CascadeOut
  | [], k => ⟨false, 0, k, [], [], []⟩
  | e :: rest, k =>
    if e.core.displayed && e.core.enabled then
      let ptag := (find_parent_clickable e).tag
      let headLog := ["[" ++ cname ++ "] Last resort click on '" ++ e.core.text ++
        "' (tag: " ++ ptag ++ ")"]
      let d := detect_submission_change (env.oracle k)
      if d.1 then
        ⟨true, 1, k + 1, [⟨4, true⟩], headLog ++ d.2, [Ev.lastResortClick e.core.text]⟩
      else
        let r := s4Loop env cname rest (k + 1)
        ⟨r.submitted, r.inc, r.oracleIdx, ⟨4, false⟩ :: r.attempts,
          headLog ++ d.2 ++ r.log, Ev.lastResortClick e.core.text :: r.evs⟩
    else s4Loop env cname rest k

/-- Strategy 4: the last-resort clicks. -/
def strategy4 (env : OrchEnv) (cname : String) (page : PageCtx) (k : Nat) : CascadeOut :=
  s4Loop env cname (page.pageElems.filter (fun e => tagIn5 e.core.tag)) k

/-- The two-phrase success check used by the context pre-check (line 457)
and the post-submission confirmation (line 652). -/
def pageHasThankYou (src : String) : Bool :=
  strContains (strLower src) "thank you" || strContains (strLower src) "your submission"

/-- The post-submission confirmation (lines 651-654): when submitted and
the page shows a thank-you phrase, log the confirmation (the form loop then
stops, which the caller's `submitted` flag already forces). -/
def confirmCheck (cname : String) (postSource : String) (a : CascadeOut) : CascadeOut :=
  if a.submitted && pageHasThankYou postSource then
    { a with log := a.log ++
        ["[" ++ cname ++ "] Confirmed 'Thank you' page after submission."] }
  else a

/-- The whole submission cascade for one form (lines 576-672), strategies
in their fixed order with the `if not submitted:` guards. -/
def attemptSubmit (env : OrchEnv) (cname : String) (page : PageCtx)
    (hasReal : Bool) (container : Option Nat) (fu : FormUnit) (k : Nat) : CascadeOut :=
  ((confirmCheck cname fu.postSource
      (((strategy1 env cname page container k).seq (strategy2 env cname fu)).seq
        (strategy3 env cname hasReal))).seq
    (strategy4 env cname page))

/-!
## The context/form loops and the final report (lines 446-681)
-/

/-- The running state of one invocation: `form_count`, `submitted_forms`,
the function-scoped visited-radio-group names, the oracle-stream position,
the action log, the event trace, and — for inspection — the final selection
state of each processed form. -/
structure RunSt where
  formCount : Nat
  submitted : Nat
  visited : List String
  oidx : Nat
  log : List String
  evs : List Ev
  finalChecked : List (List Bool)

/-- Processing of one form (lines 466-675): count it, fill it, run the
submission cascade; returns the updated state and the form's `submitted`
flag (which breaks the form loop). -/
def processForm (env : OrchEnv) (cname : String) (page : PageCtx)
    (hasReal : Bool) (container : Option Nat) (fu : FormUnit) (st : RunSt) :
    RunSt × Bool :=
  let f := fillPass cname env.arg page.pageInputs env.fk fu st.visited
  let co := attemptSubmit env cname page hasReal container fu st.oidx
  (⟨st.formCount + 1, st.submitted + co.inc, f.visited, co.oracleIdx,
      st.log ++ f.log ++ co.log, st.evs ++ f.evs ++ co.evs,
      st.finalChecked ++ [(List.range fu.inputs.length).map f.chk]⟩,
    co.submitted)

/-- The form loop of one context: stops at the first submitted form
(lines 652-654 and 674-675). -/
def processForms (env : OrchEnv) (cname : String) (page : PageCtx)
    (hasReal : Bool) : List (Option Nat × FormUnit) → RunSt → RunSt
  | [], st => st
  | (ci, fu) :: rest, st =>
    let r := processForm env cname page hasReal ci fu st
    if r.2 then r.1 else processForms env cname page hasReal rest r.1

/-- The form units of a context (lines 462-464): the located `<form>`s, or
the document body as a single fallback unit. -/
def formUnitsOf (p : PageCtx) : List (Option Nat × FormUnit) :=
  if p.realForms.isEmpty then [(none, p.bodyUnit)]
  else p.realForms.enum.map (fun q => (some q.1, q.2))

/-- The context loop (lines 449-679).  A context whose stored handle is not
the main driver would be switched into (line 450-454) — modeled by a
`switchFrame` event and a skip, since `switch_to.frame` raises on a driver
argument; the success pre-check (lines 456-460) short-circuits the whole
loop; otherwise the context's forms are processed and the loop stops as
soon as any submission was counted (lines 678-679). -/
def processContexts (env : OrchEnv) : List Ctx → RunSt → RunSt
  | [], st => st
  | c :: rest, st =>
    if c.handle != 0 then
      processContexts env rest { st with evs := st.evs ++ [Ev.switchFrame c.cname] }
    else if pageHasThankYou c.page.source then
      { st with submitted := st.submitted + 1,
                log := st.log ++
                  ["[" ++ c.cname ++ "] Detected 'Thank you' page; submission already successful."] }
    else
      let st1 := processForms env c.cname c.page (!c.page.realForms.isEmpty)
        (formUnitsOf c.page) st
      if st1.submitted > 0 then st1 else processContexts env rest st1

/-- The value returned by one invocation, plus the pieces it is built from. -/
structure RunResult where
  report : String
  formCount : Nat
  submitted : Nat
  log : List String
  evs : List Ev
  finalChecked : List (List Bool)

/-- `fill_every_form_tool(arg)` (lines 168-681): enumerate contexts,
process them, and return the report string (line 681). -/
def fill_every_form_tool (env : OrchEnv) : RunResult :=
  let ec := enumerateContexts env
  let st0 : RunSt := ⟨0, 0, [], 0, env.navLog ++ ec.2, [], []⟩
  let st := processContexts env ec.1 st0
  ⟨"Detected " ++ toString st.formCount ++ " form(s) across contexts, submitted " ++
      toString st.submitted ++ ":\n" ++ String.intercalate "\n" st.log,
    st.formCount, st.submitted, st.log, st.evs, st.finalChecked⟩

/-!
## Claim-side predicates and analysis helpers
-/

/-- The success condition as the specification words it for C3: identical to
the code's condition except that the login-field counts are restricted to
displayed (visible) inputs. -/
def detectClaimCondition (s0 s1 : DriverState) : Bool :=
  !(s1.url == s0.url) || !(s1.forms == s0.forms) || sourceChangedB s0 s1 ||
    (decide (0 < visibleLoginFieldCount s0) &&
      decide (visibleLoginFieldCount s1 < visibleLoginFieldCount s0))

/-- No attempt in the list was confirmed by the oracle. -/
def allResultsFalse (as : List Attempt) : Bool :=
  as.all (fun a => !a.result)

/-- Every attempt before the last one has a `false` oracle verdict: the
cascade stopped at its first confirmed attempt. -/
def stopsAtFirstSuccess : List Attempt → Bool
  | [] => true
  | a :: rest => if a.result then rest.isEmpty else stopsAtFirstSuccess rest

/-- Oracle verdict of the last attempt (`false` when there were none). -/
def lastResult : List Attempt → Bool
  | [] => false
  | a :: rest => if rest.isEmpty then a.result else lastResult rest

/-- The strategy ranks of the attempts are non-decreasing: strategies were
executed in the cascade's fixed order. -/
def ranksMono : List Attempt → Bool
  | [] => true
  | a :: rest =>
    (match rest with
     | [] => true
     | b :: _ => decide (a.strat ≤ b.strat)) && ranksMono rest

/-- All attempt ranks lie in `[lo, hi]`. -/
def stratBounded (lo hi : Nat) (as : List Attempt) : Bool :=
  as.all (fun a => decide (lo ≤ a.strat) && decide (a.strat ≤ hi))

/-- The well-formedness contract of a (partial) cascade run with strategy
ranks in `[lo, hi]`: ordered strategies, stop at the first confirmed
attempt, the `submitted` flag mirrors the last verdict, and one
`submitted_forms` increment exactly when submitted. -/
def GoodCascade (lo hi : Nat) (o : CascadeOut) : Prop :=
  ranksMono o.attempts = true ∧ stratBounded lo hi o.attempts = true ∧
    stopsAtFirstSuccess o.attempts = true ∧
    o.submitted = lastResult o.attempts ∧
    o.inc = (if o.submitted then 1 else 0)

/-- Number of `switch_to.frame` entries in the event trace. -/
def switchCount (evs : List Ev) : Nat :=
  evs.countP (fun e => match e with | Ev.switchFrame _ => true | _ => false)

/-- Number of radio clicks targeting group `n` in the event trace. -/
def radioClickCount (n : String) (evs : List Ev) : Nat :=
  evs.countP (fun e => match e with | Ev.clickRadio m => m == n | _ => false)

/-!
## Concrete instances used by counterexamples and witnesses
-/

/-- A fixed generator record; the letters are arbitrary. -/
def fkW : Faker := ⟨"FE", "FP", "FW", "FD", "FN", "FG", "FA", "W", "WR", "0123456789"⟩

/-- A quiescent snapshot: feeding the oracle two copies of it yields a
`false` verdict. -/
def sQ : DriverState := ⟨"u", "s", 0, []⟩

/-- A text input named `foo`. -/
def inpFoo : FormInput :=
  { tag := "input", type_attr := some "text", name_attr := some "foo",
    id_attr := none, placeholder := none, pattern := none, aria_label := none,
    displayed := true, enabled := true, checked := false, labelNearEmail := false }

/-- A text input named `email` (its identity string contains `email`). -/
def elemEmailName : FormInput :=
  { tag := "input", type_attr := some "text", name_attr := some "email",
    id_attr := none, placeholder := none, pattern := none, aria_label := none,
    displayed := true, enabled := true, checked := false, labelNearEmail := false }

/-- An unchecked radio button of group `g`. -/
def radioG : FormInput :=
  { tag := "input", type_attr := some "radio", name_attr := some "g",
    id_attr := none, placeholder := none, pattern := none, aria_label := none,
    displayed := true, enabled := true, checked := false, labelNearEmail := false }

/-- An empty body fallback unit. -/
def emptyFU : FormUnit := ⟨[], ""⟩

/-- A single-form unit holding one radio button of group `g`. -/
def fuRadio : FormUnit := ⟨[radioG], ""⟩

/-- Environment with two forms that each contain one radio button of the
same group name `g`, and an always-quiescent oracle. -/
def envC2 : OrchEnv :=
  { navLog := [], arg := [], oracle := fun _ => .ok sQ sQ, fk := fkW,
    iframes := [],
    mainPage := { source := "x", realForms := [fuRadio, fuRadio],
                  bodyUnit := emptyFU, pageInputs := [], pageElems := [] } }

/-- Environment whose main page already says "success" (a phrase of the
success vocabulary) and holds one form with a text input. -/
def envC5 : OrchEnv :=
  { navLog := [], arg := [], oracle := fun _ => .ok sQ sQ, fk := fkW,
    iframes := [],
    mainPage := { source := "Operation was a success", realForms := [⟨[inpFoo], ""⟩],
                  bodyUnit := emptyFU, pageInputs := [], pageElems := [] } }

/-- Environment with one plain form, a quiescent oracle and no success
phrases anywhere. -/
def envC7 : OrchEnv :=
  { navLog := [], arg := [], oracle := fun _ => .ok sQ sQ, fk := fkW,
    iframes := [],
    mainPage := { source := "x", realForms := [⟨[inpFoo], ""⟩],
                  bodyUnit := emptyFU, pageInputs := [], pageElems := [] } }

/-- A context whose page already shows a thank-you phrase. -/
def ctxTY : Ctx :=
  ⟨0, "main page",
    { source := "Thank you!", realForms := [], bodyUnit := emptyFU,
      pageInputs := [], pageElems := [] }⟩

/-- An empty starting run state. -/
def st0W : RunSt := ⟨0, 0, [], 0, [], [], []⟩

/-- Oracle snapshots for the C3 counterexample: an input named `email`
that is not displayed disappears between the snapshots while URL and form
count are unchanged and the new markup shows no success phrase. -/
def snapC3a : DriverState := ⟨"u", "a", 0, [⟨none, some "email", none, false⟩]⟩

/-- Second snapshot of the C3 counterexample. -/
def snapC3b : DriverState := ⟨"u", "b", 0, []⟩

/-- All radio buttons of group `n` reach their fill branch: enabled and not
skipped as an already-filled email field. -/
def radioGroupFillable (inputs : List FormInput) (emailValue : Option String)
    (n : String) : Bool :=
  (groupIdx inputs n).all (fun j =>
    match inputs.get? j with
    | some e => e.enabled && !(emailValue.isSome && emailFieldPred e)
    | none => true)

/-- Invariant of the fill pass for radio group `n`: while the group name is
unvisited, the group's checked count is unchanged-bounded (at most one) and
no click on the group was recorded; once visited, exactly one member is
checked and at most one click was recorded. -/
def RadioInv (inputs : List FormInput) (n : String) (st : FillSt) : Prop :=
  if st.visited.contains n then
    (groupIdx inputs n).countP st.chk = 1 ∧ radioClickCount n st.evs ≤ 1
  else
    (groupIdx inputs n).countP st.chk ≤ 1 ∧ radioClickCount n st.evs = 0

/-- Invariant of the fill pass for a radio group `n` whose name was already
visited before the pass began: the group receives no click and keeps the
selection state `base`. -/
def RadioFrozen (inputs : List FormInput) (n : String) (base : Nat → Bool)
    (st : FillSt) : Prop :=
  st.visited.contains n = true ∧ radioClickCount n st.evs = 0 ∧
    ∀ j ∈ groupIdx inputs n, st.chk j = base j

/-!
## Basic lemmas
-/

theorem charsInfix_of_mem {c : Char} : ∀ {l : List Char}, c ∈ l → charsInfix [c] l = true := by
  intro l h
  induction l with
  | nil => cases h
  | cons b bs ih =>
    rcases List.mem_cons.mp h with h | h
    · subst h
      simp [charsInfix, List.isPrefixOf]
    · simp [charsInfix, ih h]

theorem afterAtHasDot_mem : ∀ {l : List Char}, afterAtHasDot l = true → '@' ∈ l ∧ '.' ∈ l := by
  intro l h
  induction l with
  | nil => cases h
  | cons c rest ih =>
    by_cases hc : c = '@'
    · subst hc
      have hdot : ('.' : Char) ∈ rest := by
        have := h
        simp only [afterAtHasDot, beq_self_eq_true, if_true] at this
        simpa using this
      exact ⟨List.mem_cons_self _ _, List.mem_cons_of_mem _ hdot⟩
    · have hne : (c == '@') = false := by simpa using hc
      simp only [afterAtHasDot, hne] at h
      rcases ih h with ⟨h1, h2⟩
      exact ⟨List.mem_cons_of_mem _ h1, List.mem_cons_of_mem _ h2⟩

theorem emailShaped_emailLike {v : String} (h : emailShaped v = true) (k : String) :
    emailLikePred (k, v) = true := by
  rcases afterAtHasDot_mem h with ⟨hat, hdot⟩
  have h1 : strContains v "@" = true := charsInfix_of_mem hat
  have h2 : strContains v "." = true := charsInfix_of_mem hdot
  simp [emailLikePred, h1, h2]

/-!
## C1: email priority in the classifier
-/

/-- C1 counterexample: the element's identity string contains `email` and
the map holds the email-shaped value `u@d.com`, yet `guess_input_value`
returns `a.b@c` — a map value that passes the code's weaker `@`-and-`.`
check but is not email-shaped (its only `.` precedes the `@`). -/
theorem C1_counterexample :
    strContains (identityStringOf elemEmailName) "email" = true ∧
    emailShaped "u@d.com" = true ∧
    guess_input_value elemEmailName [("x", "a.b@c"), ("email", "u@d.com")] [] fkW = "a.b@c" ∧
    emailShaped "a.b@c" = false := by decide

/-- C1 (amended): for an element whose identity string contains `email` or
whose type is exactly `email`, and a semantic map holding at least one
email-shaped value, the classifier returns the value of some map entry
containing both `@` and `.` (the code's check) — never a synthetic
placeholder; the returned value need not itself be email-shaped. -/
theorem C1_amended (inp : FormInput) (cd : List (String × String))
    (page_inputs : List FormInput) (fk : Faker)
    (hfield : strContains (identityStringOf inp) "email" = true ∨ inputTypeOf inp = "email")
    (hmap : ∃ kv ∈ cd, emailShaped kv.2 = true) :
    ∃ kv ∈ cd, guess_input_value inp cd page_inputs fk = kv.2 ∧ emailLikePred kv = true := by
  obtain ⟨kv₀, hst, hshape⟩ := hmap
  have hlike : emailLikePred kv₀ = true := emailShaped_emailLike hshape kv₀.1
  have hsome : (cd.find? emailLikePred).isSome :=
    List.find?_isSome.mpr ⟨kv₀, hst, hlike⟩
  obtain ⟨kv₁, hfind⟩ := Option.isSome_iff_exists.mp hsome
  refine ⟨kv₁, List.mem_of_find?_eq_some hfind, ?_, List.find?_some hfind⟩
  have hne : cd.isEmpty = false := by
    cases cd with
    | nil => cases hst
    | cons a l => rfl
  have hguard : (strContains (identityStringOf inp) "email" ||
      (inputTypeOf inp == "email")) = true := by
    rcases hfield with h | h
    · simp [h]
    · simp [h]
  unfold guess_input_value customLookup
  simp [hne, hguard, hfind]

/-- Witness for C1 (amended) at a concrete element and map. -/
theorem C1_witness :
    ∃ kv ∈ [("email", "u@d.com")],
      guess_input_value elemEmailName [("email", "u@d.com")] [] fkW = kv.2 ∧
        emailLikePred kv = true :=
  C1_amended elemEmailName _ [] fkW (Or.inl (by decide))
    ⟨("email", "u@d.com"), by simp, by decide⟩

/-!
## C3, C4, C8: the submission-outcome oracle
-/

/-- C3 counterexample: a non-displayed input named `email` disappears
between the snapshots; URL, form count — and the count of *visible*
login-identifying fields — are unchanged and the new markup shows no
success phrase, yet the oracle reports a change.  The claim's condition
(with visibility) is false while the code returns true. -/
theorem C3_counterexample :
    (detect_snapshots snapC3a snapC3b).1 = true ∧
    detectClaimCondition snapC3a snapC3b = false := by decide

/-- C3 (amended): `detect_submission_change` returns true iff the URL
changed, or the form count changed, or the markup changed and the new
markup shows a success indicator, or the count of login-identifying input
fields — counted regardless of visibility, by case-sensitive attribute
substring match — strictly decreased from a positive initial count. -/
theorem C3_amended (s0 s1 : DriverState) :
    (detect_snapshots s0 s1).1 = true ↔
      (s1.url ≠ s0.url ∨ s1.forms ≠ s0.forms ∨
        (s1.source ≠ s0.source ∧ hasSuccessIndicator s1.source = true) ∨
        (0 < loginFieldCount s0 ∧ loginFieldCount s1 < loginFieldCount s0)) := by
  have hfst : (detect_snapshots s0 s1).1 = detectCondition s0 s1 := by
    unfold detect_snapshots
    by_cases h : detectCondition s0 s1 <;> simp [h]
  rw [hfst]
  unfold detectCondition sourceChangedB loginSuccessB
  simp only [Bool.or_eq_true, Bool.and_eq_true, Bool.not_eq_true',
    beq_eq_false_iff_ne, decide_eq_true_eq, ne_eq]
  tauto

/-- C4: if URL, markup (hence also the input elements serialized in it) and
form count are all unchanged between the two snapshots, the oracle returns
false. -/
theorem C4_oracle_conservative (s0 s1 : DriverState)
    (hurl : s1.url = s0.url) (hsrc : s1.source = s0.source)
    (hforms : s1.forms = s0.forms) (hinputs : s1.inputs = s0.inputs) :
    (detect_snapshots s0 s1).1 = false := by
  have hcond : detectCondition s0 s1 = false := by
    unfold detectCondition sourceChangedB loginSuccessB loginFieldCount
    simp [hurl, hsrc, hforms, hinputs]
  unfold detect_snapshots
  simp [hcond]

/-- Witness for C4 at two identical snapshots. -/
theorem C4_witness : (detect_snapshots sQ sQ).1 = false :=
  C4_oracle_conservative sQ sQ rfl rfl rfl rfl

/-- C8: any internal failure of `detect_submission_change` is caught; the
descriptive line is appended to the shared log and the verdict is `false`
(the Lean model's totality mirrors "never raises"). -/
theorem C8_never_raises (msg : String) :
    detect_submission_change (OracleInput.err msg) =
      (false, ["Error in detect_submission_change: " ++ msg]) := rfl

/-!
## Cascade ordering lemmas
-/

theorem allResultsFalse_lastResult : ∀ {as : List Attempt},
    allResultsFalse as = true → lastResult as = false := by
  intro as h
  induction as with
  | nil => rfl
  | cons a rest ih =>
    simp only [allResultsFalse, List.all_cons, Bool.and_eq_true] at h
    simp only [lastResult]
    cases hrest : rest.isEmpty
    · exact ih (by simpa [allResultsFalse] using h.2)
    · simpa using h.1

theorem allFalse_of_stops_not_last : ∀ {as : List Attempt},
    stopsAtFirstSuccess as = true → lastResult as = false →
    allResultsFalse as = true := by
  intro as hs hl
  induction as with
  | nil => rfl
  | cons a rest ih =>
    by_cases ha : a.result = true
    · exfalso
      simp only [stopsAtFirstSuccess, ha, if_true] at hs
      simp only [lastResult, hs, if_true] at hl
      rw [ha] at hl
      cases hl
    · have ha' : a.result = false := by simpa using ha
      simp only [stopsAtFirstSuccess, ha', Bool.false_eq_true, if_false] at hs
      simp only [allResultsFalse, List.all_cons, ha', Bool.and_eq_true]
      refine ⟨rfl, ?_⟩
      cases hrest : rest.isEmpty
      · simp only [lastResult, hrest, Bool.false_eq_true, if_false] at hl
        simpa [allResultsFalse] using ih hs hl
      · have : rest = [] := List.isEmpty_iff.mp hrest
        subst this
        rfl

theorem stops_append : ∀ {as bs : List Attempt},
    allResultsFalse as = true → stopsAtFirstSuccess bs = true →
    stopsAtFirstSuccess (as ++ bs) = true := by
  intro as bs ha hb
  induction as with
  | nil => simpa
  | cons a rest ih =>
    simp only [allResultsFalse, List.all_cons, Bool.and_eq_true] at ha
    have ha1 : a.result = false := by simpa using ha.1
    simp only [List.cons_append, stopsAtFirstSuccess, ha1, Bool.false_eq_true, if_false]
    exact ih (by simpa [allResultsFalse] using ha.2)

theorem lastResult_append : ∀ (as bs : List Attempt),
    lastResult (as ++ bs) = if bs.isEmpty then lastResult as else lastResult bs := by
  intro as bs
  cases bs with
  | nil => simp [lastResult]
  | cons b bs' =>
    induction as with
    | nil => simp
    | cons a rest ih =>
      have hne : (rest ++ b :: bs').isEmpty = false := by cases rest <;> simp
      simp only [List.cons_append, lastResult, hne, Bool.false_eq_true, if_false] at ih ⊢
      simpa using ih

theorem stratBounded_mem {lo hi : Nat} {as : List Attempt}
    (h : stratBounded lo hi as = true) :
    ∀ a ∈ as, lo ≤ a.strat ∧ a.strat ≤ hi := by
  simpa only [stratBounded, List.all_eq_true, Bool.and_eq_true, decide_eq_true_eq] using h

theorem stratBounded_of_mem {lo hi : Nat} {as : List Attempt}
    (h : ∀ a ∈ as, lo ≤ a.strat ∧ a.strat ≤ hi) : stratBounded lo hi as = true := by
  simpa only [stratBounded, List.all_eq_true, Bool.and_eq_true, decide_eq_true_eq] using h

theorem stratBounded_mono {lo hi lo' hi' : Nat} {as : List Attempt}
    (h : stratBounded lo hi as = true) (hlo : lo' ≤ lo) (hhi : hi ≤ hi') :
    stratBounded lo' hi' as = true := by
  refine stratBounded_of_mem (fun a ha => ?_)
  rcases stratBounded_mem h a ha with ⟨h1, h2⟩
  exact ⟨le_trans hlo h1, le_trans h2 hhi⟩

theorem stratBounded_append {lo hi : Nat} {as bs : List Attempt}
    (ha : stratBounded lo hi as = true) (hb : stratBounded lo hi bs = true) :
    stratBounded lo hi (as ++ bs) = true := by
  refine stratBounded_of_mem (fun a hmem => ?_)
  rcases List.mem_append.mp hmem with h | h
  · exact stratBounded_mem ha a h
  · exact stratBounded_mem hb a h

theorem ranksMono_tail {a : Attempt} {as : List Attempt}
    (h : ranksMono (a :: as) = true) : ranksMono as = true := by
  cases as with
  | nil => rfl
  | cons b bs =>
    have h' : (decide (a.strat ≤ b.strat) && ranksMono (b :: bs)) = true := h
    simp only [Bool.and_eq_true] at h'
    exact h'.2

theorem ranksMono_head_le {a b : Attempt} {bs : List Attempt}
    (h : ranksMono (a :: b :: bs) = true) : a.strat ≤ b.strat := by
  have h' : (decide (a.strat ≤ b.strat) && ranksMono (b :: bs)) = true := h
  simp only [Bool.and_eq_true, decide_eq_true_eq] at h'
  exact h'.1

theorem ranksMono_cons {a : Attempt} {as : List Attempt}
    (h : ranksMono as = true)
    (hle : ∀ b, as.head? = some b → a.strat ≤ b.strat) :
    ranksMono (a :: as) = true := by
  cases as with
  | nil => rfl
  | cons b bs =>
    have h1 : a.strat ≤ b.strat := hle b rfl
    show (decide (a.strat ≤ b.strat) && ranksMono (b :: bs)) = true
    simp [h1, h]

theorem ranksMono_append {m : Nat} : ∀ {as bs : List Attempt},
    ranksMono as = true → ranksMono bs = true →
    (∀ a ∈ as, a.strat ≤ m) → (∀ b ∈ bs, m ≤ b.strat) →
    ranksMono (as ++ bs) = true := by
  intro as bs ha hb hua hlb
  induction as with
  | nil => simpa
  | cons a rest ih =>
    have htail : ranksMono (rest ++ bs) = true :=
      ih (ranksMono_tail ha) (fun x hx => hua x (List.mem_cons_of_mem _ hx))
    rw [List.cons_append]
    refine ranksMono_cons htail ?_
    intro x hx
    cases rest with
    | nil =>
      simp only [List.nil_append] at hx
      have hxmem : x ∈ bs := List.mem_of_mem_head? hx
      exact le_trans (hua a (List.mem_cons_self _ _)) (hlb x hxmem)
    | cons r rest' =>
      simp only [List.cons_append, List.head?_cons, Option.some.injEq] at hx
      subst hx
      exact ranksMono_head_le ha

theorem goodCascade_nil {lo hi : Nat} {o : CascadeOut}
    (h1 : o.attempts = []) (h2 : o.submitted = false) (h3 : o.inc = 0) :
    GoodCascade lo hi o := by
  refine ⟨?_, ?_, ?_, ?_, ?_⟩ <;>
    simp [h1, h2, h3, ranksMono, stratBounded, stopsAtFirstSuccess, lastResult]

theorem goodCascade_single {lo hi s : Nat} {r : Bool} {o : CascadeOut}
    (h1 : o.attempts = [⟨s, r⟩]) (h2 : o.submitted = r)
    (h3 : o.inc = if r then 1 else 0) (hlo : lo ≤ s) (hhi : s ≤ hi) :
    GoodCascade lo hi o := by
  refine ⟨?_, ?_, ?_, ?_, ?_⟩ <;>
    cases r <;>
      simp [h1, h2, h3, ranksMono, stratBounded, stopsAtFirstSuccess, lastResult, hlo, hhi]

theorem goodCascade_cons_false {lo hi s : Nat} {o r : CascadeOut}
    (hg : GoodCascade lo hi r)
    (ha : o.attempts = ⟨s, false⟩ :: r.attempts)
    (hs : o.submitted = r.submitted) (hinc : o.inc = r.inc)
    (hslo : lo ≤ s) (hshi : s ≤ hi) (hsle : ∀ b ∈ r.attempts, s ≤ b.strat) :
    GoodCascade lo hi o := by
  obtain ⟨g1, g2, g3, g4, g5⟩ := hg
  refine ⟨?_, ?_, ?_, ?_, ?_⟩
  · rw [ha]
    refine ranksMono_cons g1 ?_
    intro b hb
    exact hsle b (List.mem_of_mem_head? hb)
  · rw [ha]
    refine stratBounded_of_mem (fun a hmem => ?_)
    rcases List.mem_cons.mp hmem with h | h
    · subst h; exact ⟨hslo, hshi⟩
    · exact stratBounded_mem g2 a h
  · rw [ha]
    simpa [stopsAtFirstSuccess] using g3
  · rw [hs, ha, g4]
    cases hra : r.attempts with
    | nil => simp [lastResult]
    | cons b bs => simp [lastResult]
  · rw [hinc, hs, g5]

theorem goodCascade_seq {lo₁ hi₁ lo₂ hi₂ : Nat} {a : CascadeOut} {f : Nat → CascadeOut}
    (hga : GoodCascade lo₁ hi₁ a) (hgf : ∀ k, GoodCascade lo₂ hi₂ (f k))
    (h12 : hi₁ ≤ lo₂) (hlo : lo₁ ≤ lo₂) (hhi : hi₁ ≤ hi₂) :
    GoodCascade lo₁ hi₂ (a.seq f) := by
  obtain ⟨a1, a2, a3, a4, a5⟩ := hga
  by_cases hsub : a.submitted = true
  · have : a.seq f = a := by simp [CascadeOut.seq, hsub]
    rw [this]
    exact ⟨a1, stratBounded_mono a2 le_rfl hhi, a3, a4, a5⟩
  · have hsf : a.submitted = false := by simpa using hsub
    obtain ⟨b1, b2, b3, b4, b5⟩ := hgf a.oracleIdx
    have haf : allResultsFalse a.attempts = true :=
      allFalse_of_stops_not_last a3 (by rw [← a4]; exact hsf)
    have hseq : a.seq f =
        ⟨(f a.oracleIdx).submitted, a.inc + (f a.oracleIdx).inc,
          (f a.oracleIdx).oracleIdx, a.attempts ++ (f a.oracleIdx).attempts,
          a.log ++ (f a.oracleIdx).log, a.evs ++ (f a.oracleIdx).evs⟩ := by
      simp [CascadeOut.seq, hsf]
    rw [hseq]
    refine ⟨?_, ?_, ?_, ?_, ?_⟩
    · exact ranksMono_append a1 b1
        (fun x hx => le_trans (stratBounded_mem a2 x hx).2 h12)
        (fun y hy => (stratBounded_mem b2 y hy).1)
    · exact stratBounded_append (stratBounded_mono a2 le_rfl hhi)
        (stratBounded_mono b2 hlo le_rfl)
    · exact stops_append haf b3
    · show (f a.oracleIdx).submitted = lastResult (a.attempts ++ (f a.oracleIdx).attempts)
      rw [lastResult_append]
      cases hbe : (f a.oracleIdx).attempts.isEmpty
      · simpa [hbe] using b4
      · have hnil : (f a.oracleIdx).attempts = [] := List.isEmpty_iff.mp hbe
        rw [b4, hnil]
        simp [lastResult, allResultsFalse_lastResult haf]
    · show a.inc + (f a.oracleIdx).inc = _
      have hz : a.inc = 0 := by rw [a5, hsf]; rfl
      rw [hz, Nat.zero_add, b5]

theorem goodCascade_confirm {lo hi : Nat} {a : CascadeOut}
    (h : GoodCascade lo hi a) (cname post : String) :
    GoodCascade lo hi (confirmCheck cname post a) := by
  unfold confirmCheck
  by_cases hc : (a.submitted && pageHasThankYou post) = true
  · simpa [hc] using h
  · simpa [hc] using h

theorem s1Loop_good (env : OrchEnv) (cname : String) :
    ∀ (l : List CandElem) (k : Nat), GoodCascade 1 1 (s1Loop env cname l k) := by
  intro l
  induction l with
  | nil => intro k; exact goodCascade_nil rfl rfl rfl
  | cons b rest ih =>
    intro k
    by_cases hd : (detect_submission_change (env.oracle k)).1 = true
    · have h1 : (s1Loop env cname (b :: rest) k).attempts = [⟨1, true⟩] := by
        simp [s1Loop, hd]
      have h2 : (s1Loop env cname (b :: rest) k).submitted = true := by
        simp [s1Loop, hd]
      have h3 : (s1Loop env cname (b :: rest) k).inc = 1 := by
        simp [s1Loop, hd]
      exact goodCascade_single h1 h2 (by rw [h3]; simp) le_rfl le_rfl
    · have hd' : (detect_submission_change (env.oracle k)).1 = false := by simpa using hd
      have h1 : (s1Loop env cname (b :: rest) k).attempts =
          ⟨1, false⟩ :: (s1Loop env cname rest (k + 1)).attempts := by
        simp [s1Loop, hd']
      have h2 : (s1Loop env cname (b :: rest) k).submitted =
          (s1Loop env cname rest (k + 1)).submitted := by
        simp [s1Loop, hd']
      have h3 : (s1Loop env cname (b :: rest) k).inc =
          (s1Loop env cname rest (k + 1)).inc := by
        simp [s1Loop, hd']
      refine goodCascade_cons_false (ih (k + 1)) h1 h2 h3 le_rfl le_rfl ?_
      intro x hx
      exact (stratBounded_mem (ih (k + 1)).2.1 x hx).1

theorem strategy2_good (env : OrchEnv) (cname : String) (fu : FormUnit) (k : Nat) :
    GoodCascade 2 2 (strategy2 env cname fu k) := by
  by_cases he : (textInputsOf fu).isEmpty = true
  · refine goodCascade_nil ?_ ?_ ?_ <;> simp [strategy2, he]
  · have he' : (textInputsOf fu).isEmpty = false := by simpa using he
    by_cases hd : (detect_submission_change (env.oracle k)).1 = true
    · refine goodCascade_single (s := 2) (r := true) ?_ ?_ ?_ le_rfl le_rfl <;>
        simp [strategy2, he', hd]
    · have hd' : (detect_submission_change (env.oracle k)).1 = false := by simpa using hd
      refine goodCascade_single (s := 2) (r := false) ?_ ?_ ?_ le_rfl le_rfl <;>
        simp [strategy2, he', hd']

theorem strategy3_good (env : OrchEnv) (cname : String) (hasReal : Bool) (k : Nat) :
    GoodCascade 3 3 (strategy3 env cname hasReal k) := by
  by_cases hr : hasReal = true
  · by_cases hd : (detect_submission_change (env.oracle k)).1 = true
    · refine goodCascade_single (s := 3) (r := true) ?_ ?_ ?_ le_rfl le_rfl <;>
        simp [strategy3, hr, hd]
    · have hd' : (detect_submission_change (env.oracle k)).1 = false := by simpa using hd
      refine goodCascade_single (s := 3) (r := false) ?_ ?_ ?_ le_rfl le_rfl <;>
        simp [strategy3, hr, hd']
  · have hr' : hasReal = false := by simpa using hr
    refine goodCascade_nil ?_ ?_ ?_ <;> simp [strategy3, hr']

theorem s4Loop_good (env : OrchEnv) (cname : String) :
    ∀ (l : List CandElem) (k : Nat), GoodCascade 4 4 (s4Loop env cname l k) := by
  intro l
  induction l with
  | nil => intro k; exact goodCascade_nil rfl rfl rfl
  | cons e rest ih =>
    intro k
    by_cases hvis : (e.core.displayed && e.core.enabled) = true
    · by_cases hd : (detect_submission_change (env.oracle k)).1 = true
      · refine goodCascade_single (s := 4) (r := true) ?_ ?_ ?_ le_rfl le_rfl <;>
          simp [s4Loop, hvis, hd]
      · have hd' : (detect_submission_change (env.oracle k)).1 = false := by simpa using hd
        have h1 : (s4Loop env cname (e :: rest) k).attempts =
            ⟨4, false⟩ :: (s4Loop env cname rest (k + 1)).attempts := by
          simp [s4Loop, hvis, hd']
        have h2 : (s4Loop env cname (e :: rest) k).submitted =
            (s4Loop env cname rest (k + 1)).submitted := by
          simp [s4Loop, hvis, hd']
        have h3 : (s4Loop env cname (e :: rest) k).inc =
            (s4Loop env cname rest (k + 1)).inc := by
          simp [s4Loop, hvis, hd']
        refine goodCascade_cons_false (ih (k + 1)) h1 h2 h3 le_rfl le_rfl ?_
        intro x hx
        exact (stratBounded_mem (ih (k + 1)).2.1 x hx).1
    · have hvis' : (e.core.displayed && e.core.enabled) = false := by simpa using hvis
      have hrw : s4Loop env cname (e :: rest) k = s4Loop env cname rest k := by
        simp [s4Loop, hvis']
      rw [hrw]
      exact ih k

theorem attemptSubmit_good (env : OrchEnv) (cname : String) (page : PageCtx)
    (hasReal : Bool) (container : Option Nat) (fu : FormUnit) (k : Nat) :
    GoodCascade 1 4 (attemptSubmit env cname page hasReal container fu k) := by
  unfold attemptSubmit
  have h12 : GoodCascade 1 2 ((strategy1 env cname page container k).seq
      (strategy2 env cname fu)) :=
    goodCascade_seq (s1Loop_good env cname _ k) (strategy2_good env cname fu)
      (by norm_num) (by norm_num) (by norm_num)
  have h13 : GoodCascade 1 3 (((strategy1 env cname page container k).seq
      (strategy2 env cname fu)).seq (strategy3 env cname hasReal)) :=
    goodCascade_seq h12 (strategy3_good env cname hasReal)
      (by norm_num) (by norm_num) (by norm_num)
  have hcf : GoodCascade 1 3 (confirmCheck cname fu.postSource
      (((strategy1 env cname page container k).seq (strategy2 env cname fu)).seq
        (strategy3 env cname hasReal))) :=
    goodCascade_confirm h13 cname fu.postSource
  exact goodCascade_seq hcf (fun j => s4Loop_good env cname _ j)
    (by norm_num) (by norm_num) (by norm_num)

/-!
## C6: cascade ordering
-/

/-- C6: the submission cascade executes its strategies in the fixed order
(candidate clicks, Enter key, script submission, last-resort clicks — the
attempt ranks are non-decreasing), never attempts anything after an
oracle-confirmed attempt (every attempt before the last has a false
verdict), and its `submitted` outcome is exactly the verdict of the last
attempt made — so success is attributed to the first strategy the oracle
confirms. -/
theorem C6_cascade_order (env : OrchEnv) (cname : String) (page : PageCtx)
    (hasReal : Bool) (container : Option Nat) (fu : FormUnit) (k : Nat) :
    ranksMono (attemptSubmit env cname page hasReal container fu k).attempts = true ∧
    stopsAtFirstSuccess (attemptSubmit env cname page hasReal container fu k).attempts = true ∧
    (attemptSubmit env cname page hasReal container fu k).submitted =
      lastResult (attemptSubmit env cname page hasReal container fu k).attempts := by
  obtain ⟨h1, h2, h3, h4, h5⟩ := attemptSubmit_good env cname page hasReal container fu k
  exact ⟨h1, h3, h4⟩

/-!
## C9: at most one counted submission per invocation
-/

theorem processForm_inc (env : OrchEnv) (cname : String) (page : PageCtx)
    (hasReal : Bool) (container : Option Nat) (fu : FormUnit) (st : RunSt) :
    (processForm env cname page hasReal container fu st).1.submitted =
      st.submitted +
        (if (processForm env cname page hasReal container fu st).2 then 1 else 0) := by
  have h := (attemptSubmit_good env cname page hasReal container fu st.oidx).2.2.2.2
  simp only [processForm]
  rw [h]

theorem processForms_le (env : OrchEnv) (cname : String) (page : PageCtx)
    (hasReal : Bool) :
    ∀ (l : List (Option Nat × FormUnit)) (st : RunSt),
      (processForms env cname page hasReal l st).submitted ≤ st.submitted + 1 := by
  intro l
  induction l with
  | nil => intro st; simp [processForms]
  | cons p rest ih =>
    intro st
    obtain ⟨ci, fu⟩ := p
    by_cases hr : (processForm env cname page hasReal ci fu st).2 = true
    · have hrw : processForms env cname page hasReal ((ci, fu) :: rest) st =
          (processForm env cname page hasReal ci fu st).1 := by
        simp [processForms, hr]
      rw [hrw, processForm_inc, hr]
      simp
    · have hr' : (processForm env cname page hasReal ci fu st).2 = false := by
        simpa using hr
      have hrw : processForms env cname page hasReal ((ci, fu) :: rest) st =
          processForms env cname page hasReal rest
            (processForm env cname page hasReal ci fu st).1 := by
        simp [processForms, hr']
      have hsub : (processForm env cname page hasReal ci fu st).1.submitted =
          st.submitted := by
        rw [processForm_inc, hr']
        simp
      rw [hrw]
      calc (processForms env cname page hasReal rest
              (processForm env cname page hasReal ci fu st).1).submitted
          ≤ (processForm env cname page hasReal ci fu st).1.submitted + 1 := ih _
        _ = st.submitted + 1 := by rw [hsub]

theorem processContexts_le (env : OrchEnv) :
    ∀ (l : List Ctx) (st : RunSt),
      (processContexts env l st).submitted ≤ st.submitted + 1 := by
  intro l
  induction l with
  | nil => intro st; simp [processContexts]
  | cons c rest ih =>
    intro st
    by_cases h1 : (c.handle != 0) = true
    · have hrw : processContexts env (c :: rest) st =
          processContexts env rest { st with evs := st.evs ++ [Ev.switchFrame c.cname] } := by
        simp [processContexts, h1]
      rw [hrw]
      exact ih _
    · have h1' : (c.handle != 0) = false := by simpa using h1
      by_cases h2 : pageHasThankYou c.page.source = true
      · have hrw : (processContexts env (c :: rest) st).submitted = st.submitted + 1 := by
          simp [processContexts, h1', h2]
        rw [hrw]
      · have h2' : pageHasThankYou c.page.source = false := by simpa using h2
        by_cases h3 : (processForms env c.cname c.page (!c.page.realForms.isEmpty)
            (formUnitsOf c.page) st).submitted > 0
        · have hrw : processContexts env (c :: rest) st =
              processForms env c.cname c.page (!c.page.realForms.isEmpty)
                (formUnitsOf c.page) st := by
            simp [processContexts, h1', h2', h3]
          rw [hrw]
          exact processForms_le env c.cname c.page _ _ st
        · have hz : (processForms env c.cname c.page (!c.page.realForms.isEmpty)
              (formUnitsOf c.page) st).submitted = 0 := Nat.eq_zero_of_not_pos h3
          have hrw : processContexts env (c :: rest) st =
              processContexts env rest
                (processForms env c.cname c.page (!c.page.realForms.isEmpty)
                  (formUnitsOf c.page) st) := by
            simp [processContexts, h1', h2', h3]
          rw [hrw]
          have := ih (processForms env c.cname c.page (!c.page.realForms.isEmpty)
            (formUnitsOf c.page) st)
          rw [hz] at this
          omega

/-- C9: over one whole invocation, the submitted count is at most 1 — the
first counted submission (or a pre-detected success page) stops the form
loop and then the context loop, so no second submission is ever counted. -/
theorem C9_at_most_one (env : OrchEnv) : (fill_every_form_tool env).submitted ≤ 1 := by
  have h := processContexts_le env (enumerateContexts env).1
    ⟨0, 0, [], 0, env.navLog ++ (enumerateContexts env).2, [], []⟩
  simpa [fill_every_form_tool] using h

/-!
## C10: the iframe-switch branch is unreachable
-/

theorem enumFold_mem : ∀ (ifs : List IframeInfo) (acc : List Ctx × List String) (c : Ctx),
    c ∈ (ifs.foldl enumStep acc).1 →
      c ∈ acc.1 ∨ ∃ f ∈ ifs, c = ⟨0, iframeLabel f, f.page⟩ := by
  intro ifs
  induction ifs with
  | nil => intro acc c h; exact Or.inl h
  | cons f rest ih =>
    intro acc c h
    rw [List.foldl_cons] at h
    rcases ih (enumStep acc f) c h with h' | ⟨g, hg, hc⟩
    · unfold enumStep at h'
      by_cases hf : f.accessible = true
      · simp only [hf, if_true] at h'
        rcases List.mem_append.mp h' with h'' | h''
        · exact Or.inl h''
        · right
          exact ⟨f, List.mem_cons_self _ _, by simpa using h''⟩
      · have hf' : f.accessible = false := by simpa using hf
        simp only [hf', Bool.false_eq_true, if_false] at h'
        exact Or.inl h'
    · exact Or.inr ⟨g, List.mem_cons_of_mem _ hg, hc⟩

theorem enumerateContexts_handle (env : OrchEnv) :
    ∀ c ∈ (enumerateContexts env).1, c.handle = 0 := by
  intro c hc
  rcases enumFold_mem env.iframes _ c hc with h | ⟨f, _, rfl⟩
  · have : c = ⟨0, "main page", env.mainPage⟩ := by simpa using h
    rw [this]
  · rfl

theorem enumerateContexts_page (env : OrchEnv) :
    ∀ c ∈ (enumerateContexts env).1,
      c.page = env.mainPage ∨ ∃ f ∈ env.iframes, c.page = f.page := by
  intro c hc
  rcases enumFold_mem env.iframes _ c hc with h | ⟨f, hf, rfl⟩
  · have : c = ⟨0, "main page", env.mainPage⟩ := by simpa using h
    rw [this]
    exact Or.inl rfl
  · exact Or.inr ⟨f, hf, rfl⟩

theorem switchCount_append (a b : List Ev) :
    switchCount (a ++ b) = switchCount a + switchCount b := by
  simp [switchCount, List.countP_append]

theorem emailStep_switch (cname v : String) (s : FillSt) (i : FormInput) :
    switchCount (emailStep cname v s i).evs = switchCount s.evs := by
  unfold emailStep
  by_cases h : (i.displayed && i.enabled) = true
  · simp [h, switchCount_append, switchCount, List.countP_cons]
  · simp [h]

theorem emailFold_switch (cname v : String) :
    ∀ (flds : List FormInput) (st : FillSt),
      switchCount ((flds.foldl (emailStep cname v) st).evs) = switchCount st.evs := by
  intro flds
  induction flds with
  | nil => intro st; rfl
  | cons i rest ih =>
    intro st
    rw [List.foldl_cons, ih, emailStep_switch]

theorem emailPass_switch (cname : String) (fu : FormUnit) (ev : Option String)
    (st : FillSt) :
    switchCount (emailPass cname fu ev st).evs = switchCount st.evs := by
  cases ev with
  | none => rfl
  | some v =>
    by_cases he : (fu.inputs.filter emailFieldPred).isEmpty = true
    · simp [emailPass, he]
    · have he' : (fu.inputs.filter emailFieldPred).isEmpty = false := by simpa using he
      have hrw : emailPass cname fu (some v) st =
          (fu.inputs.filter emailFieldPred).foldl (emailStep cname v) st := by
        simp [emailPass, he']
      rw [hrw]
      exact emailFold_switch cname v _ st

theorem fillStep_switch (cname : String) (arg : List (String × String))
    (pageInputs : List FormInput) (fk : Faker) (allInputs : List FormInput)
    (emailValue : Option String) (st : FillSt) (p : Nat × FormInput) :
    switchCount (fillStep cname arg pageInputs fk allInputs emailValue st p).evs =
      switchCount st.evs := by
  simp only [fillStep]
  repeat' split
  all_goals
    first
    | rfl
    | simp [switchCount_append, switchCount, List.countP_cons, List.countP_nil]

theorem fillLoop_switch (cname : String) (arg : List (String × String))
    (pageInputs : List FormInput) (fk : Faker) (allInputs : List FormInput)
    (emailValue : Option String) :
    ∀ (pairs : List (Nat × FormInput)) (st : FillSt),
      switchCount ((fillLoop cname arg pageInputs fk allInputs emailValue pairs st).evs) =
        switchCount st.evs := by
  intro pairs
  induction pairs with
  | nil => intro st; rfl
  | cons p rest ih =>
    intro st
    show switchCount ((fillLoop cname arg pageInputs fk allInputs emailValue rest
      (fillStep cname arg pageInputs fk allInputs emailValue st p)).evs) = _
    rw [ih, fillStep_switch]

theorem fillPass_switch (cname : String) (arg : List (String × String))
    (pageInputs : List FormInput) (fk : Faker) (fu : FormUnit)
    (visited0 : List String) :
    switchCount (fillPass cname arg pageInputs fk fu visited0).evs = 0 := by
  unfold fillPass
  rw [fillLoop_switch, emailPass_switch]
  rfl

theorem s1Loop_switch (env : OrchEnv) (cname : String) :
    ∀ (l : List CandElem) (k : Nat), switchCount (s1Loop env cname l k).evs = 0 := by
  intro l
  induction l with
  | nil => intro k; rfl
  | cons b rest ih =>
    intro k
    by_cases hd : (detect_submission_change (env.oracle k)).1 = true
    · simp [s1Loop, hd, switchCount, List.countP_cons]
    · have hd' : (detect_submission_change (env.oracle k)).1 = false := by simpa using hd
      have hrw : (s1Loop env cname (b :: rest) k).evs =
          Ev.clickCandidate b.core.text :: (s1Loop env cname rest (k + 1)).evs := by
        simp [s1Loop, hd']
      rw [hrw]
      simp [switchCount, List.countP_cons]
      have := ih (k + 1)
      simpa [switchCount] using this

theorem strategy2_switch (env : OrchEnv) (cname : String) (fu : FormUnit) (k : Nat) :
    switchCount (strategy2 env cname fu k).evs = 0 := by
  by_cases he : (textInputsOf fu).isEmpty = true
  · simp [strategy2, he, switchCount]
  · have he' : (textInputsOf fu).isEmpty = false := by simpa using he
    by_cases hd : (detect_submission_change (env.oracle k)).1 = true
    · simp [strategy2, he', hd, switchCount, List.countP_cons]
    · have hd' : (detect_submission_change (env.oracle k)).1 = false := by simpa using hd
      simp [strategy2, he', hd', switchCount, List.countP_cons]

theorem strategy3_switch (env : OrchEnv) (cname : String) (hasReal : Bool) (k : Nat) :
    switchCount (strategy3 env cname hasReal k).evs = 0 := by
  by_cases hr : hasReal = true
  · by_cases hd : (detect_submission_change (env.oracle k)).1 = true
    · simp [strategy3, hr, hd, switchCount, List.countP_cons]
    · have hd' : (detect_submission_change (env.oracle k)).1 = false := by simpa using hd
      simp [strategy3, hr, hd', switchCount, List.countP_cons]
  · have hr' : hasReal = false := by simpa using hr
    simp [strategy3, hr', switchCount]

theorem s4Loop_switch (env : OrchEnv) (cname : String) :
    ∀ (l : List CandElem) (k : Nat), switchCount (s4Loop env cname l k).evs = 0 := by
  intro l
  induction l with
  | nil => intro k; rfl
  | cons e rest ih =>
    intro k
    by_cases hvis : (e.core.displayed && e.core.enabled) = true
    · by_cases hd : (detect_submission_change (env.oracle k)).1 = true
      · simp [s4Loop, hvis, hd, switchCount, List.countP_cons]
      · have hd' : (detect_submission_change (env.oracle k)).1 = false := by simpa using hd
        have hrw : (s4Loop env cname (e :: rest) k).evs =
            Ev.lastResortClick e.core.text :: (s4Loop env cname rest (k + 1)).evs := by
          simp [s4Loop, hvis, hd']
        rw [hrw]
        simp [switchCount, List.countP_cons]
        have := ih (k + 1)
        simpa [switchCount] using this
    · have hvis' : (e.core.displayed && e.core.enabled) = false := by simpa using hvis
      have hrw : s4Loop env cname (e :: rest) k = s4Loop env cname rest k := by
        simp [s4Loop, hvis']
      rw [hrw]
      exact ih k

theorem seq_switch {a : CascadeOut} {f : Nat → CascadeOut}
    (ha : switchCount a.evs = 0) (hf : ∀ k, switchCount (f k).evs = 0) :
    switchCount (a.seq f).evs = 0 := by
  unfold CascadeOut.seq
  by_cases hs : a.submitted = true
  · simp [hs, ha]
  · have hs' : a.submitted = false := by simpa using hs
    simp [hs', switchCount_append, ha, hf]

theorem confirm_switch (cname post : String) (a : CascadeOut) :
    switchCount (confirmCheck cname post a).evs = switchCount a.evs := by
  unfold confirmCheck
  by_cases h : (a.submitted && pageHasThankYou post) = true
  · simp [h]
  · simp [h]

theorem attemptSubmit_switch (env : OrchEnv) (cname : String) (page : PageCtx)
    (hasReal : Bool) (container : Option Nat) (fu : FormUnit) (k : Nat) :
    switchCount (attemptSubmit env cname page hasReal container fu k).evs = 0 := by
  unfold attemptSubmit
  refine seq_switch ?_ (fun j => s4Loop_switch env cname _ j)
  rw [confirm_switch]
  refine seq_switch ?_ (fun j => strategy3_switch env cname hasReal j)
  refine seq_switch ?_ (fun j => strategy2_switch env cname fu j)
  exact s1Loop_switch env cname _ k

theorem processForm_switch (env : OrchEnv) (cname : String) (page : PageCtx)
    (hasReal : Bool) (container : Option Nat) (fu : FormUnit) (st : RunSt) :
    switchCount (processForm env cname page hasReal container fu st).1.evs =
      switchCount st.evs := by
  simp only [processForm]
  rw [switchCount_append, switchCount_append, fillPass_switch, attemptSubmit_switch]
  omega

theorem processForms_switch (env : OrchEnv) (cname : String) (page : PageCtx)
    (hasReal : Bool) :
    ∀ (l : List (Option Nat × FormUnit)) (st : RunSt),
      switchCount (processForms env cname page hasReal l st).evs = switchCount st.evs := by
  intro l
  induction l with
  | nil => intro st; rfl
  | cons p rest ih =>
    intro st
    obtain ⟨ci, fu⟩ := p
    by_cases hr : (processForm env cname page hasReal ci fu st).2 = true
    · have hrw : processForms env cname page hasReal ((ci, fu) :: rest) st =
          (processForm env cname page hasReal ci fu st).1 := by
        simp [processForms, hr]
      rw [hrw, processForm_switch]
    · have hr' : (processForm env cname page hasReal ci fu st).2 = false := by simpa using hr
      have hrw : processForms env cname page hasReal ((ci, fu) :: rest) st =
          processForms env cname page hasReal rest
            (processForm env cname page hasReal ci fu st).1 := by
        simp [processForms, hr']
      rw [hrw, ih, processForm_switch]

theorem processContexts_switch (env : OrchEnv) :
    ∀ (l : List Ctx) (st : RunSt), (∀ c ∈ l, c.handle = 0) →
      switchCount (processContexts env l st).evs = switchCount st.evs := by
  intro l
  induction l with
  | nil => intro st _; rfl
  | cons c rest ih =>
    intro st hall
    have hc0 : c.handle = 0 := hall c (List.mem_cons_self _ _)
    have h1' : (c.handle != 0) = false := by simp [hc0]
    by_cases h2 : pageHasThankYou c.page.source = true
    · have hrw : (processContexts env (c :: rest) st).evs = st.evs := by
        simp [processContexts, h1', h2]
      rw [hrw]
    · have h2' : pageHasThankYou c.page.source = false := by simpa using h2
      by_cases h3 : (processForms env c.cname c.page (!c.page.realForms.isEmpty)
          (formUnitsOf c.page) st).submitted > 0
      · have hrw : processContexts env (c :: rest) st =
            processForms env c.cname c.page (!c.page.realForms.isEmpty)
              (formUnitsOf c.page) st := by
          simp [processContexts, h1', h2', h3]
        rw [hrw, processForms_switch]
      · have hrw : processContexts env (c :: rest) st =
            processContexts env rest
              (processForms env c.cname c.page (!c.page.realForms.isEmpty)
                (formUnitsOf c.page) st) := by
          simp [processContexts, h1', h2', h3]
        rw [hrw, ih _ (fun x hx => hall x (List.mem_cons_of_mem _ hx)),
          processForms_switch]

/-- C10: every enumerated context stores the main driver handle, so the
branch that would switch into an iframe frame is never taken — the event
trace of a whole invocation contains no frame switch, and every context
(including each "iframe" entry) is processed against the main document. -/
theorem C10_no_frame_switch (env : OrchEnv) :
    ((enumerateContexts env).1.all (fun c => c.handle == 0)) = true ∧
    switchCount (fill_every_form_tool env).evs = 0 := by
  have hall : ∀ c ∈ (enumerateContexts env).1, c.handle = 0 :=
    enumerateContexts_handle env
  constructor
  · rw [List.all_eq_true]
    intro c hc
    simpa using hall c hc
  · have h := processContexts_switch env (enumerateContexts env).1
      ⟨0, 0, [], 0, env.navLog ++ (enumerateContexts env).2, [], []⟩ hall
    simpa [fill_every_form_tool, switchCount] using h

/-!
## C7: the outbound report
-/

theorem s1Loop_nofire (env : OrchEnv) (cname : String)
    (hdet : ∀ k, (detect_submission_change (env.oracle k)).1 = false) :
    ∀ (l : List CandElem) (k : Nat),
      (s1Loop env cname l k).submitted = false ∧ (s1Loop env cname l k).inc = 0 := by
  intro l
  induction l with
  | nil => intro k; exact ⟨rfl, rfl⟩
  | cons b rest ih =>
    intro k
    have hd' := hdet k
    constructor
    · simp [s1Loop, hd', (ih (k + 1)).1]
    · simp [s1Loop, hd', (ih (k + 1)).2]

theorem strategy2_nofire (env : OrchEnv) (cname : String) (fu : FormUnit) (k : Nat)
    (hdet : ∀ j, (detect_submission_change (env.oracle j)).1 = false) :
    (strategy2 env cname fu k).submitted = false ∧ (strategy2 env cname fu k).inc = 0 := by
  by_cases he : (textInputsOf fu).isEmpty = true
  · constructor <;> simp [strategy2, he]
  · have he' : (textInputsOf fu).isEmpty = false := by simpa using he
    constructor <;> simp [strategy2, he', hdet k]

theorem strategy3_nofire (env : OrchEnv) (cname : String) (hasReal : Bool) (k : Nat)
    (hdet : ∀ j, (detect_submission_change (env.oracle j)).1 = false) :
    (strategy3 env cname hasReal k).submitted = false ∧
      (strategy3 env cname hasReal k).inc = 0 := by
  by_cases hr : hasReal = true
  · constructor <;> simp [strategy3, hr, hdet k]
  · have hr' : hasReal = false := by simpa using hr
    constructor <;> simp [strategy3, hr']

theorem s4Loop_nofire (env : OrchEnv) (cname : String)
    (hdet : ∀ k, (detect_submission_change (env.oracle k)).1 = false) :
    ∀ (l : List CandElem) (k : Nat),
      (s4Loop env cname l k).submitted = false ∧ (s4Loop env cname l k).inc = 0 := by
  intro l
  induction l with
  | nil => intro k; exact ⟨rfl, rfl⟩
  | cons e rest ih =>
    intro k
    by_cases hvis : (e.core.displayed && e.core.enabled) = true
    · constructor
      · simp [s4Loop, hvis, hdet k, (ih (k + 1)).1]
      · simp [s4Loop, hvis, hdet k, (ih (k + 1)).2]
    · have hvis' : (e.core.displayed && e.core.enabled) = false := by simpa using hvis
      have hrw : s4Loop env cname (e :: rest) k = s4Loop env cname rest k := by
        simp [s4Loop, hvis']
      rw [hrw]
      exact ih k

theorem seq_nofire {a : CascadeOut} {f : Nat → CascadeOut}
    (ha : a.submitted = false ∧ a.inc = 0)
    (hf : ∀ k, (f k).submitted = false ∧ (f k).inc = 0) :
    (a.seq f).submitted = false ∧ (a.seq f).inc = 0 := by
  unfold CascadeOut.seq
  simp [ha.1, ha.2, (hf a.oracleIdx).1, (hf a.oracleIdx).2]

theorem confirm_nofire {a : CascadeOut} (cname post : String)
    (ha : a.submitted = false ∧ a.inc = 0) :
    (confirmCheck cname post a).submitted = false ∧
      (confirmCheck cname post a).inc = 0 := by
  unfold confirmCheck
  by_cases h : (a.submitted && pageHasThankYou post) = true
  · simpa [h] using ha
  · simpa [h] using ha

theorem attemptSubmit_nofire (env : OrchEnv) (cname : String) (page : PageCtx)
    (hasReal : Bool) (container : Option Nat) (fu : FormUnit) (k : Nat)
    (hdet : ∀ j, (detect_submission_change (env.oracle j)).1 = false) :
    (attemptSubmit env cname page hasReal container fu k).submitted = false ∧
      (attemptSubmit env cname page hasReal container fu k).inc = 0 := by
  unfold attemptSubmit
  refine seq_nofire ?_ (fun j => s4Loop_nofire env cname hdet _ j)
  refine confirm_nofire _ _ ?_
  refine seq_nofire ?_ (fun j => strategy3_nofire env cname hasReal j hdet)
  refine seq_nofire ?_ (fun j => strategy2_nofire env cname fu j hdet)
  exact s1Loop_nofire env cname hdet _ k

theorem processForm_nofire (env : OrchEnv) (cname : String) (page : PageCtx)
    (hasReal : Bool) (container : Option Nat) (fu : FormUnit) (st : RunSt)
    (hdet : ∀ j, (detect_submission_change (env.oracle j)).1 = false) :
    (processForm env cname page hasReal container fu st).2 = false ∧
      (processForm env cname page hasReal container fu st).1.submitted = st.submitted := by
  have h := attemptSubmit_nofire env cname page hasReal container fu st.oidx hdet
  constructor
  · simpa [processForm] using h.1
  · simp only [processForm]
    rw [h.2]
    omega

theorem processForms_nofire (env : OrchEnv) (cname : String) (page : PageCtx)
    (hasReal : Bool)
    (hdet : ∀ j, (detect_submission_change (env.oracle j)).1 = false) :
    ∀ (l : List (Option Nat × FormUnit)) (st : RunSt),
      (processForms env cname page hasReal l st).submitted = st.submitted := by
  intro l
  induction l with
  | nil => intro st; rfl
  | cons p rest ih =>
    intro st
    obtain ⟨ci, fu⟩ := p
    have h := processForm_nofire env cname page hasReal ci fu st hdet
    have hrw : processForms env cname page hasReal ((ci, fu) :: rest) st =
        processForms env cname page hasReal rest
          (processForm env cname page hasReal ci fu st).1 := by
      simp [processForms, h.1]
    rw [hrw, ih, h.2]

theorem processContexts_nofire (env : OrchEnv)
    (hdet : ∀ j, (detect_submission_change (env.oracle j)).1 = false) :
    ∀ (l : List Ctx) (st : RunSt), (∀ c ∈ l, pageHasThankYou c.page.source = false) →
      (processContexts env l st).submitted = st.submitted := by
  intro l
  induction l with
  | nil => intro st _; rfl
  | cons c rest ih =>
    intro st hall
    have hty : pageHasThankYou c.page.source = false := hall c (List.mem_cons_self _ _)
    by_cases h1 : (c.handle != 0) = true
    · have hrw : processContexts env (c :: rest) st =
          processContexts env rest { st with evs := st.evs ++ [Ev.switchFrame c.cname] } := by
        simp [processContexts, h1]
      rw [hrw, ih _ (fun x hx => hall x (List.mem_cons_of_mem _ hx))]
    · have h1' : (c.handle != 0) = false := by simpa using h1
      have hsub : (processForms env c.cname c.page (!c.page.realForms.isEmpty)
          (formUnitsOf c.page) st).submitted = st.submitted :=
        processForms_nofire env c.cname c.page _ hdet _ st
      by_cases h3 : (processForms env c.cname c.page (!c.page.realForms.isEmpty)
          (formUnitsOf c.page) st).submitted > 0
      · have hrw : processContexts env (c :: rest) st =
            processForms env c.cname c.page (!c.page.realForms.isEmpty)
              (formUnitsOf c.page) st := by
          simp [processContexts, h1', hty, h3]
        rw [hrw, hsub]
      · have hrw : processContexts env (c :: rest) st =
            processContexts env rest
              (processForms env c.cname c.page (!c.page.realForms.isEmpty)
                (formUnitsOf c.page) st) := by
          simp [processContexts, h1', hty, h3]
        rw [hrw, ih _ (fun x hx => hall x (List.mem_cons_of_mem _ hx)), hsub]

/-- C7: every invocation returns exactly
`"Detected {N} form(s) across contexts, submitted {M}:\n"` followed by the
newline-joined action log, with `N` the form counter and `M` the counted
submissions; and when every oracle consultation reports no change and no
context shows a thank-you page, the run still returns normally with
`M = 0` (total failure is an outcome, not an exception). -/
theorem C7_report_format (env : OrchEnv) :
    (fill_every_form_tool env).report =
      "Detected " ++ toString (fill_every_form_tool env).formCount ++
        " form(s) across contexts, submitted " ++
        toString (fill_every_form_tool env).submitted ++ ":\n" ++
        String.intercalate "\n" (fill_every_form_tool env).log ∧
    ((∀ j, (detect_submission_change (env.oracle j)).1 = false) →
      pageHasThankYou env.mainPage.source = false →
      (∀ f ∈ env.iframes, pageHasThankYou f.page.source = false) →
      (fill_every_form_tool env).submitted = 0) := by
  constructor
  · rfl
  · intro hdet hmain hifr
    have hall : ∀ c ∈ (enumerateContexts env).1, pageHasThankYou c.page.source = false := by
      intro c hc
      rcases enumerateContexts_page env c hc with h | ⟨f, hf, h⟩
      · rw [h]; exact hmain
      · rw [h]; exact hifr f hf
    have h := processContexts_nofire env hdet (enumerateContexts env).1
      ⟨0, 0, [], 0, env.navLog ++ (enumerateContexts env).2, [], []⟩ hall
    simpa [fill_every_form_tool] using h

/-- Witness for C7 at a concrete one-form environment with a quiescent
oracle. -/
theorem C7_witness :
    (fill_every_form_tool envC7).submitted = 0 ∧
    (fill_every_form_tool envC7).report =
      "Detected " ++ toString (fill_every_form_tool envC7).formCount ++
        " form(s) across contexts, submitted " ++
        toString (fill_every_form_tool envC7).submitted ++ ":\n" ++
        String.intercalate "\n" (fill_every_form_tool envC7).log := by
  have h := C7_report_format envC7
  refine ⟨h.2 ?_ (by decide) ?_, h.1⟩
  · intro j
    have hq : (detect_submission_change (OracleInput.ok sQ sQ)).1 = false := by decide
    exact hq
  · intro f hf
    cases hf

/-!
## C5: the success short-circuit
-/

/-- C5 counterexample: the context's markup contains `success` — a phrase of
the success vocabulary — yet the orchestrator does not record the context
as submitted and proceeds to fill the form's field and run the cascade:
the pre-check looks only for `thank you` / `your submission`. -/
theorem C5_counterexample :
    strContains (strLower envC5.mainPage.source) "success" = true ∧
    "success" ∈ successIndicators ∧
    (fill_every_form_tool envC5).submitted = 0 ∧
    (fill_every_form_tool envC5).evs = [Ev.fillField "W", Ev.enterKey, Ev.jsSubmit] := by
  decide

/-- C5 (amended): for a context whose markup contains `thank you` or
`your submission` at the pre-check, the orchestrator increments the
submitted count, appends only the detection line, performs no fill or
click in it (the event trace is unchanged), and stops processing the
remaining contexts — the result does not depend on them. -/
theorem C5_amended (env : OrchEnv) (c : Ctx) (rest : List Ctx) (st : RunSt)
    (hh : c.handle = 0) (hp : pageHasThankYou c.page.source = true) :
    processContexts env (c :: rest) st =
      { st with
        submitted := st.submitted + 1,
        log := st.log ++
          ["[" ++ c.cname ++ "] Detected 'Thank you' page; submission already successful."] } := by
  have h1' : (c.handle != 0) = false := by simp [hh]
  simp [processContexts, h1', hp]

/-- Witness for C5 (amended) at a concrete thank-you context. -/
theorem C5_witness :
    processContexts envC7 [ctxTY] st0W =
      { st0W with
        submitted := st0W.submitted + 1,
        log := st0W.log ++
          ["[" ++ ctxTY.cname ++ "] Detected 'Thank you' page; submission already successful."] } :=
  C5_amended envC7 ctxTY [] st0W rfl (by decide)

/-!
## C2: radio-group selection
-/

/-- Branch analysis of one generic fill step: its effect on the selection
state, the visited-group set and the event trace is one of: nothing,
a checkbox click, a radio click (with its group marked visited), a radio
group marked visited without a click, or a text fill. -/
theorem fillStep_cases (cname : String) (arg : List (String × String))
    (pageInputs : List FormInput) (fk : Faker) (allInputs : List FormInput)
    (emailValue : Option String) (st : FillSt) (p : Nat × FormInput) :
    ∀ r : FillSt, r = fillStep cname arg pageInputs fk allInputs emailValue st p →
    ((r.chk = st.chk ∧ r.visited = st.visited ∧ r.evs = st.evs) ∨
    ((strLower (p.2.type_attr.getD "") == "checkbox") = true ∧
      r.chk = (fun j => if j == p.1 then true else st.chk j) ∧
      r.visited = st.visited ∧ r.evs = st.evs ++ [Ev.clickCheckbox]) ∨
    (∃ rn, p.2.name_attr = some rn ∧
      (strLower (p.2.type_attr.getD "") == "radio") = true ∧
      (rn != "" && !st.visited.contains rn) = true ∧ st.chk p.1 = false ∧
      r.chk = radioClick allInputs st.chk p.1 rn ∧
      r.visited = st.visited ++ [rn] ∧ r.evs = st.evs ++ [Ev.clickRadio rn]) ∨
    (∃ rn, p.2.name_attr = some rn ∧
      (strLower (p.2.type_attr.getD "") == "radio") = true ∧
      (rn != "" && !st.visited.contains rn) = true ∧ st.chk p.1 = true ∧
      r.chk = st.chk ∧ r.visited = st.visited ++ [rn] ∧ r.evs = st.evs) ∨
    (r.chk = st.chk ∧ r.visited = st.visited ∧
      ∃ v, r.evs = st.evs ++ [Ev.fillField v])) := by
  intro r hr
  by_cases h1 : (strLower (p.2.type_attr.getD "") == "hidden") = true
  · exact Or.inl (by refine ⟨?_, ?_, ?_⟩ <;> (rw [hr]; simp [fillStep, h1]))
  · have h1' : (strLower (p.2.type_attr.getD "") == "hidden") = false := by simpa using h1
    by_cases h2 : p.2.enabled = true
    swap
    · have h2' : p.2.enabled = false := by simpa using h2
      exact Or.inl (by refine ⟨?_, ?_, ?_⟩ <;> (rw [hr]; simp [fillStep, h1', h2']))
    · by_cases h4 : (emailValue.isSome && emailFieldPred p.2) = true
      · exact Or.inl (by refine ⟨?_, ?_, ?_⟩ <;> (rw [hr]; simp [fillStep, h1', h2, h4]))
      · have h4' : (emailValue.isSome && emailFieldPred p.2) = false := by simpa using h4
        by_cases h5 : (strLower (p.2.type_attr.getD "") == "checkbox") = true
        · by_cases h8 : st.chk p.1 = true
          · exact Or.inl (by refine ⟨?_, ?_, ?_⟩ <;>
              (rw [hr]; simp [fillStep, h1', h2, h4', h5, h8]))
          · have h8' : st.chk p.1 = false := by simpa using h8
            refine Or.inr (Or.inl ⟨h5, ?_, ?_, ?_⟩) <;>
              (rw [hr]; simp [fillStep, h1', h2, h4', h5, h8'])
        · have h5' : (strLower (p.2.type_attr.getD "") == "checkbox") = false := by simpa using h5
          by_cases h6 : (strLower (p.2.type_attr.getD "") == "radio") = true
          · cases hnm : p.2.name_attr with
            | none =>
              exact Or.inl (by refine ⟨?_, ?_, ?_⟩ <;>
                (rw [hr]; simp [fillStep, h1', h2, h4', h5', h6, hnm]))
            | some rn =>
              by_cases h7 : (rn != "" && !st.visited.contains rn) = true
              · have h7p : ¬rn = "" ∧ rn ∉ st.visited := by simpa using h7
                by_cases h8 : st.chk p.1 = true
                · refine Or.inr (Or.inr (Or.inr (Or.inl ⟨rn, rfl, h6, h7, h8, ?_, ?_, ?_⟩))) <;>
                    (rw [hr]; simp [fillStep, h1', h2, h4', h5', h6, hnm, h7p.1, h7p.2, h8])
                · have h8' : st.chk p.1 = false := by simpa using h8
                  refine Or.inr (Or.inr (Or.inl ⟨rn, rfl, h6, h7, h8', ?_, ?_, ?_⟩)) <;>
                    (rw [hr]; simp [fillStep, h1', h2, h4', h5', h6, hnm, h7p.1, h7p.2, h8'])
              · have h7p' : ¬(¬rn = "" ∧ rn ∉ st.visited) := by simpa using h7
                exact Or.inl (by refine ⟨?_, ?_, ?_⟩ <;>
                  (rw [hr]; simp [fillStep, h1', h2, h4', h5', h6, hnm, h7p']))
          · have h6' : (strLower (p.2.type_attr.getD "") == "radio") = false := by simpa using h6
            by_cases h9 : (strLower (p.2.type_attr.getD "") == "button" ||
                strLower (p.2.type_attr.getD "") == "submit" ||
                strLower (p.2.type_attr.getD "") == "reset" ||
                strLower (p.2.type_attr.getD "") == "file") = true
            · exact Or.inl (by refine ⟨?_, ?_, ?_⟩ <;>
                (rw [hr]; simp [fillStep, h1', h2, h4', h5', h6', h9]))
            · have h9' : (strLower (p.2.type_attr.getD "") == "button" ||
                  strLower (p.2.type_attr.getD "") == "submit" ||
                  strLower (p.2.type_attr.getD "") == "reset" ||
                  strLower (p.2.type_attr.getD "") == "file") = false := by simpa using h9
              refine Or.inr (Or.inr (Or.inr (Or.inr ⟨?_, ?_,
                guess_input_value p.2 arg pageInputs fk, ?_⟩))) <;>
                (rw [hr]; simp [fillStep, h1', h2, h4', h5', h6', h9'])

theorem isGroupMem_some_iff {e : FormInput} {n : String} :
    isGroupMem (some e) n = true ↔
      strLower (e.type_attr.getD "") = "radio" ∧ e.name_attr = some n := by
  simp [isGroupMem]

theorem groupIdx_mem {inputs : List FormInput} {n : String} {j : Nat} :
    j ∈ groupIdx inputs n ↔ j < inputs.length ∧ isGroupMem (inputs.get? j) n = true := by
  simp [groupIdx, List.mem_filter, List.mem_range]

theorem groupIdx_nodup (inputs : List FormInput) (n : String) :
    (groupIdx inputs n).Nodup :=
  (List.nodup_range _).filter _

theorem groupIdx_mem_of_get? {inputs : List FormInput} {n : String} {j : Nat}
    {e : FormInput} (hp : inputs.get? j = some e)
    (hm : isGroupMem (some e) n = true) : j ∈ groupIdx inputs n := by
  rw [groupIdx_mem]
  constructor
  · obtain ⟨hlt, -⟩ := List.get?_eq_some.mp hp
    exact hlt
  · rw [hp]
    exact hm

theorem not_groupIdx_of_get? {inputs : List FormInput} {n : String} {j : Nat}
    {e : FormInput} (hp : inputs.get? j = some e)
    (hne : isGroupMem (some e) n = false) : j ∉ groupIdx inputs n := by
  intro hj
  rcases groupIdx_mem.mp hj with ⟨-, hm⟩
  rw [hp, hne] at hm
  cases hm

theorem countP_chk_congr {l : List Nat} {f g : Nat → Bool}
    (h : ∀ j ∈ l, f j = g j) : l.countP f = l.countP g :=
  List.countP_congr (fun x hx => by rw [h x hx])

theorem countP_radioClick {inputs : List FormInput} {n : String} {chk : Nat → Bool}
    {i : Nat} (hi : i ∈ groupIdx inputs n) :
    (groupIdx inputs n).countP (radioClick inputs chk i n) = 1 := by
  have hcongr : (groupIdx inputs n).countP (radioClick inputs chk i n) =
      (groupIdx inputs n).countP (fun j => j == i) := by
    apply countP_chk_congr
    intro j hj
    rcases groupIdx_mem.mp hj with ⟨-, hm⟩
    by_cases hji : (j == i) = true
    · simp [radioClick, hji]
    · have hji' : (j == i) = false := by simpa using hji
      have hm' : isGroupMem inputs[j]? n = true := by
        rw [← List.get?_eq_getElem?]
        exact hm
      simp [radioClick, hji', hm']
  rw [hcongr]
  show (groupIdx inputs n).count i = 1
  exact List.count_eq_one_of_mem (groupIdx_nodup inputs n) hi

theorem countP_pos_of_mem {l : List Nat} {f : Nat → Bool} {i : Nat}
    (hi : i ∈ l) (hf : f i = true) : 0 < l.countP f :=
  List.countP_pos_iff.mpr ⟨i, hi, hf⟩

theorem radioClickCount_append (n : String) (a b : List Ev) :
    radioClickCount n (a ++ b) = radioClickCount n a + radioClickCount n b := by
  simp [radioClickCount, List.countP_append]

theorem radioClickCount_checkbox (n : String) :
    radioClickCount n [Ev.clickCheckbox] = 0 := rfl

theorem radioClickCount_fill (n v : String) :
    radioClickCount n [Ev.fillField v] = 0 := rfl

theorem radioClickCount_radio_self (n : String) :
    radioClickCount n [Ev.clickRadio n] = 1 := by
  simp [radioClickCount, List.countP_cons]

theorem radioClickCount_radio_other {rn n : String} (h : ¬ rn = n) :
    radioClickCount n [Ev.clickRadio rn] = 0 := by
  simp [radioClickCount, List.countP_cons, h]

theorem guard_facts {rn : String} {l : List String}
    (h : (rn != "" && !l.contains rn) = true) :
    ¬ rn = "" ∧ l.contains rn = false := by
  simpa only [Bool.and_eq_true, bne_iff_ne, ne_eq, Bool.not_eq_true'] using h

theorem contains_append_singleton (l : List String) (x a : String) :
    (l ++ [x]).contains a = (l.contains a || a == x) := by
  induction l with
  | nil => cases h : a == x <;> simp [List.contains, List.elem, h]
  | cons b bs ih =>
    cases h : a == b <;> simp [List.contains, List.elem, h] <;>
      simpa [List.contains, List.elem] using ih

theorem fillStep_radioInv (cname : String) (arg : List (String × String))
    (pageInputs : List FormInput) (fk : Faker) (allInputs : List FormInput)
    (emailValue : Option String) (n : String)
    (p : Nat × FormInput) (hp : allInputs.get? p.1 = some p.2)
    (st : FillSt) (h : RadioInv allInputs n st) (r : FillSt)
    (hr : r = fillStep cname arg pageInputs fk allInputs emailValue st p) :
    RadioInv allInputs n r := by
  rcases fillStep_cases cname arg pageInputs fk allInputs emailValue st p r hr with
    ⟨hc, hv, he⟩ | ⟨htype, hc, hv, he⟩ | ⟨rn, hname, htype, hguard, hchk, hc, hv, he⟩ |
    ⟨rn, hname, htype, hguard, hchk, hc, hv, he⟩ | ⟨hc, hv, v, he⟩
  · unfold RadioInv at h ⊢
    rw [hc, hv, he]
    exact h
  · have hnotmem : p.1 ∉ groupIdx allInputs n := by
      apply not_groupIdx_of_get? hp
      by_cases hgm : isGroupMem (some p.2) n = true
      · exfalso
        rcases isGroupMem_some_iff.mp hgm with ⟨ht, -⟩
        rw [ht] at htype
        exact absurd htype (by decide)
      · simpa using hgm
    have hcount : (groupIdx allInputs n).countP r.chk =
        (groupIdx allInputs n).countP st.chk := by
      rw [hc]
      apply countP_chk_congr
      intro j hj
      have hjne : (j == p.1) = false := by
        simp only [beq_eq_false_iff_ne, ne_eq]
        intro hji
        subst hji
        exact hnotmem hj
      simp [hjne]
    have hclicks : radioClickCount n r.evs = radioClickCount n st.evs := by
      rw [he, radioClickCount_append, radioClickCount_checkbox]
      omega
    unfold RadioInv at h ⊢
    rw [hv, hcount, hclicks]
    exact h
  · -- radio clicked
    rcases guard_facts hguard with ⟨hrnne, hrncont⟩
    by_cases hrn : rn = n
    · subst hrn
      have hmem : p.1 ∈ groupIdx allInputs rn := by
        apply groupIdx_mem_of_get? hp
        rw [isGroupMem_some_iff]
        constructor
        · simpa using htype
        · exact hname
      have hphaseA : (groupIdx allInputs rn).countP st.chk ≤ 1 ∧
          radioClickCount rn st.evs = 0 := by
        unfold RadioInv at h
        rw [hrncont] at h
        simpa using h
      have hcontains : r.visited.contains rn = true := by
        rw [hv, contains_append_singleton]
        simp
      unfold RadioInv
      rw [hcontains]
      simp only [if_true]
      constructor
      · rw [hc]
        exact countP_radioClick hmem
      · rw [he, radioClickCount_append, radioClickCount_radio_self, hphaseA.2]
    · have hcontains : r.visited.contains n = st.visited.contains n := by
        rw [hv, contains_append_singleton]
        have : (n == rn) = false := by
          simp only [beq_eq_false_iff_ne, ne_eq]
          exact fun hc' => hrn hc'.symm
        rw [this]
        simp
      have hcount : (groupIdx allInputs n).countP r.chk =
          (groupIdx allInputs n).countP st.chk := by
        rw [hc]
        apply countP_chk_congr
        intro j hj
        rcases groupIdx_mem.mp hj with ⟨-, hm⟩
        have hjne : (j == p.1) = false := by
          simp only [beq_eq_false_iff_ne, ne_eq]
          intro hji
          subst hji
          rw [hp] at hm
          rcases isGroupMem_some_iff.mp hm with ⟨-, hnm⟩
          rw [hname] at hnm
          exact hrn (Option.some.inj hnm)
        have hgm : isGroupMem (allInputs.get? j) rn = false := by
          by_cases hx : isGroupMem (allInputs.get? j) rn = true
          · exfalso
            cases hgj : allInputs.get? j with
            | none => rw [hgj] at hx; cases hx
            | some e =>
              rw [hgj] at hx hm
              rcases isGroupMem_some_iff.mp hx with ⟨-, hn1⟩
              rcases isGroupMem_some_iff.mp hm with ⟨-, hn2⟩
              rw [hn1] at hn2
              exact hrn (Option.some.inj hn2)
          · simpa using hx
        have hgm' : isGroupMem allInputs[j]? rn = false := by
          rw [← List.get?_eq_getElem?]
          exact hgm
        simp [radioClick, hjne, hgm']
      have hclicks : radioClickCount n r.evs = radioClickCount n st.evs := by
        rw [he, radioClickCount_append, radioClickCount_radio_other hrn]
        omega
      unfold RadioInv at h ⊢
      rw [hcontains, hcount, hclicks]
      exact h
  · -- radio group marked visited, already selected
    rcases guard_facts hguard with ⟨hrnne, hrncont⟩
    by_cases hrn : rn = n
    · subst hrn
      have hmem : p.1 ∈ groupIdx allInputs rn := by
        apply groupIdx_mem_of_get? hp
        rw [isGroupMem_some_iff]
        constructor
        · simpa using htype
        · exact hname
      have hphaseA : (groupIdx allInputs rn).countP st.chk ≤ 1 ∧
          radioClickCount rn st.evs = 0 := by
        unfold RadioInv at h
        rw [hrncont] at h
        simpa using h
      have hcontains : r.visited.contains rn = true := by
        rw [hv, contains_append_singleton]
        simp
      unfold RadioInv
      rw [hcontains]
      simp only [if_true]
      constructor
      · rw [hc]
        have hpos : 0 < (groupIdx allInputs rn).countP st.chk :=
          countP_pos_of_mem hmem hchk
        omega
      · rw [he, hphaseA.2]
        omega
    · have hcontains : r.visited.contains n = st.visited.contains n := by
        rw [hv, contains_append_singleton]
        have : (n == rn) = false := by
          simp only [beq_eq_false_iff_ne, ne_eq]
          exact fun hc' => hrn hc'.symm
        rw [this]
        simp
      unfold RadioInv at h ⊢
      rw [hcontains, hc, he]
      exact h
  · unfold RadioInv at h ⊢
    rw [hc, hv, he, radioClickCount_append, radioClickCount_fill]
    simpa using h

theorem radioClick_other_group {allInputs : List FormInput} {n rn : String}
    (hrn : ¬ rn = n) {p1 : Nat} {e : FormInput}
    (hp : allInputs.get? p1 = some e) (hname : e.name_attr = some rn)
    (chk : Nat → Bool) :
    ∀ j ∈ groupIdx allInputs n, radioClick allInputs chk p1 rn j = chk j := by
  intro j hj
  rcases groupIdx_mem.mp hj with ⟨-, hm⟩
  have hjne : (j == p1) = false := by
    simp only [beq_eq_false_iff_ne, ne_eq]
    intro hji
    subst hji
    rw [hp] at hm
    rcases isGroupMem_some_iff.mp hm with ⟨-, hnm⟩
    rw [hname] at hnm
    exact hrn (Option.some.inj hnm)
  have hgm : isGroupMem (allInputs.get? j) rn = false := by
    by_cases hx : isGroupMem (allInputs.get? j) rn = true
    · exfalso
      cases hgj : allInputs.get? j with
      | none => rw [hgj] at hx; cases hx
      | some e' =>
        rw [hgj] at hx hm
        rcases isGroupMem_some_iff.mp hx with ⟨-, hn1⟩
        rcases isGroupMem_some_iff.mp hm with ⟨-, hn2⟩
        rw [hn1] at hn2
        exact hrn (Option.some.inj hn2)
    · simpa using hx
  have hgm' : isGroupMem allInputs[j]? rn = false := by
    rw [← List.get?_eq_getElem?]
    exact hgm
  simp [radioClick, hjne, hgm']

theorem fillStep_visited_mono (cname : String) (arg : List (String × String))
    (pageInputs : List FormInput) (fk : Faker) (allInputs : List FormInput)
    (emailValue : Option String) (n : String) (st : FillSt) (p : Nat × FormInput)
    (r : FillSt) (hr : r = fillStep cname arg pageInputs fk allInputs emailValue st p)
    (h : st.visited.contains n = true) : r.visited.contains n = true := by
  rcases fillStep_cases cname arg pageInputs fk allInputs emailValue st p r hr with
    ⟨-, hv, -⟩ | ⟨-, -, hv, -⟩ | ⟨rn, -, -, -, -, -, hv, -⟩ |
    ⟨rn, -, -, -, -, -, hv, -⟩ | ⟨-, hv, -⟩
  · rw [hv]; exact h
  · rw [hv]; exact h
  · rw [hv, contains_append_singleton, h]; rfl
  · rw [hv, contains_append_singleton, h]; rfl
  · rw [hv]; exact h

theorem fillStep_visits_member (cname : String) (arg : List (String × String))
    (pageInputs : List FormInput) (fk : Faker) (allInputs : List FormInput)
    (emailValue : Option String) (n : String) (hn : ¬ n = "")
    (p : Nat × FormInput) (henabled : p.2.enabled = true)
    (hskip : (emailValue.isSome && emailFieldPred p.2) = false)
    (hm : isGroupMem (some p.2) n = true) (st : FillSt) (r : FillSt)
    (hr : r = fillStep cname arg pageInputs fk allInputs emailValue st p) :
    r.visited.contains n = true := by
  rcases isGroupMem_some_iff.mp hm with ⟨htype, hname⟩
  have h1' : (strLower (p.2.type_attr.getD "") == "hidden") = false := by
    rw [htype]; decide
  have h5' : (strLower (p.2.type_attr.getD "") == "checkbox") = false := by
    rw [htype]; decide
  have h6 : (strLower (p.2.type_attr.getD "") == "radio") = true := by
    rw [htype]; decide
  by_cases hc : st.visited.contains n = true
  · exact fillStep_visited_mono cname arg pageInputs fk allInputs emailValue n st p r hr hc
  · have hc' : st.visited.contains n = false := by simpa using hc
    have hnin : n ∉ st.visited := by simpa using hc'
    by_cases h8 : st.chk p.1 = true
    · rw [hr]
      simp [fillStep, h1', henabled, hskip, h5', h6, hname, hn, hnin, h8,
        contains_append_singleton]
    · have h8' : st.chk p.1 = false := by simpa using h8
      rw [hr]
      simp [fillStep, h1', henabled, hskip, h5', h6, hname, hn, hnin, h8',
        contains_append_singleton]

theorem fillStep_radioFrozen (cname : String) (arg : List (String × String))
    (pageInputs : List FormInput) (fk : Faker) (allInputs : List FormInput)
    (emailValue : Option String) (n : String) (base : Nat → Bool)
    (p : Nat × FormInput) (hp : allInputs.get? p.1 = some p.2)
    (st : FillSt) (h : RadioFrozen allInputs n base st) (r : FillSt)
    (hr : r = fillStep cname arg pageInputs fk allInputs emailValue st p) :
    RadioFrozen allInputs n base r := by
  obtain ⟨hvis, hclk, hchk⟩ := h
  rcases fillStep_cases cname arg pageInputs fk allInputs emailValue st p r hr with
    ⟨hc, hv, he⟩ | ⟨htype, hc, hv, he⟩ | ⟨rn, hname, htype, hguard, hchk8, hc, hv, he⟩ |
    ⟨rn, hname, htype, hguard, hchk8, hc, hv, he⟩ | ⟨hc, hv, v, he⟩
  · exact ⟨by rw [hv]; exact hvis, by rw [he]; exact hclk,
      fun j hj => by rw [hc]; exact hchk j hj⟩
  · refine ⟨by rw [hv]; exact hvis, ?_, ?_⟩
    · rw [he, radioClickCount_append, radioClickCount_checkbox, hclk]
    · intro j hj
      have hnotmem : p.1 ∉ groupIdx allInputs n := by
        apply not_groupIdx_of_get? hp
        by_cases hgm : isGroupMem (some p.2) n = true
        · exfalso
          rcases isGroupMem_some_iff.mp hgm with ⟨ht, -⟩
          rw [ht] at htype
          exact absurd htype (by decide)
        · simpa using hgm
      have hjne : (j == p.1) = false := by
        simp only [beq_eq_false_iff_ne, ne_eq]
        intro hji
        subst hji
        exact hnotmem hj
      rw [hc]
      simp only [hjne, Bool.false_eq_true, if_false]
      exact hchk j hj
  · -- a radio of another group was clicked
    rcases guard_facts hguard with ⟨-, hrncont⟩
    have hrn : ¬ rn = n := by
      intro hx
      subst hx
      rw [hvis] at hrncont
      cases hrncont
    refine ⟨?_, ?_, ?_⟩
    · rw [hv, contains_append_singleton, hvis]
      rfl
    · rw [he, radioClickCount_append, radioClickCount_radio_other hrn, hclk]
    · intro j hj
      rw [hc, radioClick_other_group hrn hp hname st.chk j hj]
      exact hchk j hj
  · rcases guard_facts hguard with ⟨-, hrncont⟩
    have hrn : ¬ rn = n := by
      intro hx
      subst hx
      rw [hvis] at hrncont
      cases hrncont
    refine ⟨?_, ?_, ?_⟩
    · rw [hv, contains_append_singleton, hvis]
      rfl
    · rw [he]
      exact hclk
    · intro j hj
      rw [hc]
      exact hchk j hj
  · refine ⟨by rw [hv]; exact hvis, ?_, fun j hj => by rw [hc]; exact hchk j hj⟩
    rw [he, radioClickCount_append, radioClickCount_fill, hclk]

theorem radioClickCount_fillEmail (n v : String) :
    radioClickCount n [Ev.fillEmailField v] = 0 := rfl

theorem emailStep_frozen (cname v : String) (s : FillSt) (i : FormInput) (n : String) :
    (emailStep cname v s i).chk = s.chk ∧ (emailStep cname v s i).visited = s.visited ∧
    radioClickCount n (emailStep cname v s i).evs = radioClickCount n s.evs := by
  unfold emailStep
  by_cases h : (i.displayed && i.enabled) = true
  · refine ⟨by simp [h], by simp [h], ?_⟩
    simp only [h, if_true]
    rw [radioClickCount_append, radioClickCount_fillEmail]
    omega
  · simp [h]

theorem emailFold_frozen (cname v : String) (n : String) :
    ∀ (flds : List FormInput) (st : FillSt),
      ((flds.foldl (emailStep cname v) st).chk = st.chk ∧
       (flds.foldl (emailStep cname v) st).visited = st.visited ∧
       radioClickCount n ((flds.foldl (emailStep cname v) st).evs) =
         radioClickCount n st.evs) := by
  intro flds
  induction flds with
  | nil => intro st; exact ⟨rfl, rfl, rfl⟩
  | cons i rest ih =>
    intro st
    rw [List.foldl_cons]
    rcases ih (emailStep cname v st i) with ⟨h1, h2, h3⟩
    rcases emailStep_frozen cname v st i n with ⟨g1, g2, g3⟩
    exact ⟨by rw [h1, g1], by rw [h2, g2], by rw [h3, g3]⟩

theorem emailPass_frozen (cname : String) (fu : FormUnit) (ev : Option String)
    (st : FillSt) (n : String) :
    (emailPass cname fu ev st).chk = st.chk ∧
    (emailPass cname fu ev st).visited = st.visited ∧
    radioClickCount n ((emailPass cname fu ev st).evs) = radioClickCount n st.evs := by
  cases ev with
  | none => exact ⟨rfl, rfl, rfl⟩
  | some v =>
    by_cases he : (fu.inputs.filter emailFieldPred).isEmpty = true
    · have : emailPass cname fu (some v) st = st := by simp [emailPass, he]
      rw [this]
      exact ⟨rfl, rfl, rfl⟩
    · have he' : (fu.inputs.filter emailFieldPred).isEmpty = false := by simpa using he
      have : emailPass cname fu (some v) st =
          (fu.inputs.filter emailFieldPred).foldl (emailStep cname v) st := by
        simp [emailPass, he']
      rw [this]
      exact emailFold_frozen cname v n _ st

theorem fillLoop_radioInv (cname : String) (arg : List (String × String))
    (pageInputs : List FormInput) (fk : Faker) (allInputs : List FormInput)
    (emailValue : Option String) (n : String) :
    ∀ (pairs : List (Nat × FormInput)) (st : FillSt),
      (∀ q ∈ pairs, allInputs.get? q.1 = some q.2) →
      RadioInv allInputs n st →
      RadioInv allInputs n
        (fillLoop cname arg pageInputs fk allInputs emailValue pairs st) := by
  intro pairs
  induction pairs with
  | nil => intro st _ h; exact h
  | cons q rest ih =>
    intro st hv h
    show RadioInv allInputs n (fillLoop cname arg pageInputs fk allInputs emailValue rest
      (fillStep cname arg pageInputs fk allInputs emailValue st q))
    exact ih _ (fun x hx => hv x (List.mem_cons_of_mem _ hx))
      (fillStep_radioInv cname arg pageInputs fk allInputs emailValue n q
        (hv q (List.mem_cons_self _ _)) st h _ rfl)

theorem fillLoop_visited_mono (cname : String) (arg : List (String × String))
    (pageInputs : List FormInput) (fk : Faker) (allInputs : List FormInput)
    (emailValue : Option String) (n : String) :
    ∀ (pairs : List (Nat × FormInput)) (st : FillSt),
      st.visited.contains n = true →
      (fillLoop cname arg pageInputs fk allInputs emailValue pairs st).visited.contains n =
        true := by
  intro pairs
  induction pairs with
  | nil => intro st h; exact h
  | cons q rest ih =>
    intro st h
    show (fillLoop cname arg pageInputs fk allInputs emailValue rest
      (fillStep cname arg pageInputs fk allInputs emailValue st q)).visited.contains n = true
    exact ih _ (fillStep_visited_mono cname arg pageInputs fk allInputs emailValue n
      st q _ rfl h)

theorem fillLoop_visits (cname : String) (arg : List (String × String))
    (pageInputs : List FormInput) (fk : Faker) (allInputs : List FormInput)
    (emailValue : Option String) (n : String) (hn : ¬ n = "")
    (hfill : radioGroupFillable allInputs emailValue n = true) :
    ∀ (pairs : List (Nat × FormInput)) (st : FillSt),
      (∀ q ∈ pairs, allInputs.get? q.1 = some q.2) →
      (∃ q ∈ pairs, isGroupMem (some q.2) n = true) →
      (fillLoop cname arg pageInputs fk allInputs emailValue pairs st).visited.contains n =
        true := by
  intro pairs
  induction pairs with
  | nil =>
    intro st _ h
    rcases h with ⟨q, hq, -⟩
    cases hq
  | cons q rest ih =>
    intro st hv h
    show (fillLoop cname arg pageInputs fk allInputs emailValue rest
      (fillStep cname arg pageInputs fk allInputs emailValue st q)).visited.contains n = true
    rcases h with ⟨q', hq', hm⟩
    rcases List.mem_cons.mp hq' with rfl | hq'rest
    · have hpq : allInputs.get? q'.1 = some q'.2 := hv q' (List.mem_cons_self _ _)
      have hmemG : q'.1 ∈ groupIdx allInputs n := groupIdx_mem_of_get? hpq hm
      have hfacts := (List.all_eq_true.mp hfill) q'.1 hmemG
      simp only [hpq] at hfacts
      rw [Bool.and_eq_true] at hfacts
      rcases hfacts with ⟨henabled, hnskip⟩
      have hskip : (emailValue.isSome && emailFieldPred q'.2) = false := by
        rcases (by simpa using hnskip : emailValue = none ∨ emailFieldPred q'.2 = false) with
          hx | hx <;> simp [hx]
      exact fillLoop_visited_mono cname arg pageInputs fk allInputs emailValue n rest _
        (fillStep_visits_member cname arg pageInputs fk allInputs emailValue n hn q'
          henabled hskip hm st _ rfl)
    · exact ih _ (fun x hx => hv x (List.mem_cons_of_mem _ hx)) ⟨q', hq'rest, hm⟩

theorem fillLoop_radioFrozen (cname : String) (arg : List (String × String))
    (pageInputs : List FormInput) (fk : Faker) (allInputs : List FormInput)
    (emailValue : Option String) (n : String) (base : Nat → Bool) :
    ∀ (pairs : List (Nat × FormInput)) (st : FillSt),
      (∀ q ∈ pairs, allInputs.get? q.1 = some q.2) →
      RadioFrozen allInputs n base st →
      RadioFrozen allInputs n base
        (fillLoop cname arg pageInputs fk allInputs emailValue pairs st) := by
  intro pairs
  induction pairs with
  | nil => intro st _ h; exact h
  | cons q rest ih =>
    intro st hv h
    show RadioFrozen allInputs n base (fillLoop cname arg pageInputs fk allInputs emailValue
      rest (fillStep cname arg pageInputs fk allInputs emailValue st q))
    exact ih _ (fun x hx => hv x (List.mem_cons_of_mem _ hx))
      (fillStep_radioFrozen cname arg pageInputs fk allInputs emailValue n base q
        (hv q (List.mem_cons_self _ _)) st h _ rfl)

/-- C2 (amended): the visited-radio-group set is scoped to the whole
invocation (Python function-local state), not to one form.  For a nonempty
radio group `n` of one form whose members are enabled and not pre-filled as
email fields, and whose initial checked count is at most one (the DOM
invariant): if the group name is still unvisited when the form's fill pass
runs, then after the pass exactly one member is selected, the name is
recorded as visited, and the group received at most one click; if the name
was already visited (by an earlier form of the same invocation), the pass
performs no click on the group and leaves its selection state untouched. -/
theorem C2_amended (cname : String) (arg : List (String × String))
    (pageInputs : List FormInput) (fk : Faker) (fu : FormUnit)
    (visited0 : List String) (n : String) (hn : ¬ n = "") :
    (visited0.contains n = false →
      radioGroupFillable fu.inputs (emailValueOf arg) n = true →
      groupIdx fu.inputs n ≠ [] →
      (groupIdx fu.inputs n).countP (initChk fu) ≤ 1 →
      ((groupIdx fu.inputs n).countP
          (fillPass cname arg pageInputs fk fu visited0).chk = 1 ∧
        (fillPass cname arg pageInputs fk fu visited0).visited.contains n = true ∧
        radioClickCount n (fillPass cname arg pageInputs fk fu visited0).evs ≤ 1)) ∧
    (visited0.contains n = true →
      (radioClickCount n (fillPass cname arg pageInputs fk fu visited0).evs = 0 ∧
        ∀ j ∈ groupIdx fu.inputs n,
          (fillPass cname arg pageInputs fk fu visited0).chk j = initChk fu j)) := by
  have hpass : fillPass cname arg pageInputs fk fu visited0 =
      fillLoop cname arg pageInputs fk fu.inputs (emailValueOf arg) fu.inputs.enum
        (emailPass cname fu (emailValueOf arg) ⟨initChk fu, visited0, [], []⟩) := rfl
  have hvalid : ∀ q ∈ fu.inputs.enum, fu.inputs.get? q.1 = some q.2 :=
    fun q hq => List.mem_enum_iff_get?.mp hq
  rcases emailPass_frozen cname fu (emailValueOf arg)
    ⟨initChk fu, visited0, [], []⟩ n with ⟨e1, e2, e3⟩
  constructor
  · intro hnc hfill hne hcount
    have hInv1 : RadioInv fu.inputs n
        (emailPass cname fu (emailValueOf arg) ⟨initChk fu, visited0, [], []⟩) := by
      unfold RadioInv
      simp only [e1, e2, e3, hnc, Bool.false_eq_true, if_false]
      exact ⟨hcount, rfl⟩
    have hInvFin : RadioInv fu.inputs n
        (fillLoop cname arg pageInputs fk fu.inputs (emailValueOf arg) fu.inputs.enum
          (emailPass cname fu (emailValueOf arg) ⟨initChk fu, visited0, [], []⟩)) :=
      fillLoop_radioInv cname arg pageInputs fk fu.inputs (emailValueOf arg) n
        fu.inputs.enum _ hvalid hInv1
    have hmempair : ∃ q ∈ fu.inputs.enum, isGroupMem (some q.2) n = true := by
      rcases List.exists_mem_of_ne_nil _ hne with ⟨j, hj⟩
      rcases groupIdx_mem.mp hj with ⟨-, hm⟩
      cases hgj : fu.inputs.get? j with
      | none => rw [hgj] at hm; cases hm
      | some e =>
        rw [hgj] at hm
        exact ⟨(j, e), List.mk_mem_enum_iff_get?.mpr hgj, hm⟩
    have hvisits : (fillLoop cname arg pageInputs fk fu.inputs (emailValueOf arg)
        fu.inputs.enum
        (emailPass cname fu (emailValueOf arg) ⟨initChk fu, visited0, [], []⟩)).visited.contains
          n = true :=
      fillLoop_visits cname arg pageInputs fk fu.inputs (emailValueOf arg) n hn hfill
        fu.inputs.enum _ hvalid hmempair
    unfold RadioInv at hInvFin
    rw [hvisits] at hInvFin
    simp only [if_true] at hInvFin
    rw [hpass]
    exact ⟨hInvFin.1, hvisits, hInvFin.2⟩
  · intro hvc
    have hFr1 : RadioFrozen fu.inputs n (initChk fu)
        (emailPass cname fu (emailValueOf arg) ⟨initChk fu, visited0, [], []⟩) := by
      refine ⟨?_, ?_, ?_⟩
      · rw [e2]; exact hvc
      · rw [e3]; rfl
      · intro j hj
        rw [e1]
    have hFrFin : RadioFrozen fu.inputs n (initChk fu)
        (fillLoop cname arg pageInputs fk fu.inputs (emailValueOf arg) fu.inputs.enum
          (emailPass cname fu (emailValueOf arg) ⟨initChk fu, visited0, [], []⟩)) :=
      fillLoop_radioFrozen cname arg pageInputs fk fu.inputs (emailValueOf arg) n
        (initChk fu) fu.inputs.enum _ hvalid hFr1
    rw [hpass]
    exact ⟨hFrFin.2.1, hFrFin.2.2⟩

/-- Witness for C2 (amended): a one-radio group, unvisited, gets exactly one
selection and one click; with the name pre-visited, no click and no change. -/
theorem C2_witness :
    ((groupIdx fuRadio.inputs "g").countP
        (fillPass "main page" [] [] fkW fuRadio []).chk = 1 ∧
      (fillPass "main page" [] [] fkW fuRadio []).visited.contains "g" = true ∧
      radioClickCount "g" (fillPass "main page" [] [] fkW fuRadio []).evs ≤ 1) ∧
    (radioClickCount "g" (fillPass "main page" [] [] fkW fuRadio ["g"]).evs = 0 ∧
      ∀ j ∈ groupIdx fuRadio.inputs "g",
        (fillPass "main page" [] [] fkW fuRadio ["g"]).chk j = initChk fuRadio j) := by
  constructor
  · exact (C2_amended "main page" [] [] fkW fuRadio [] "g" (by decide)).1
      (by decide) (by decide) (by decide) (by decide)
  · exact (C2_amended "main page" [] [] fkW fuRadio ["g"] "g" (by decide)).2 (by decide)

/-- C2 counterexample: two forms in one context each contain a single
unchecked radio button named `g`.  The claim says that after filling,
exactly one radio per group per form is selected; but the visited set
persists across forms, so the second form's group is skipped entirely:
its radio stays unselected (final checked states `[[true], [false]]`),
and only one radio click happens in the whole run. -/
theorem C2_counterexample :
    (fill_every_form_tool envC2).finalChecked = [[true], [false]] ∧
    (fill_every_form_tool envC2).formCount = 2 ∧
    radioClickCount "g" (fill_every_form_tool envC2).evs = 1 := by decide
